import Mathlib

/-!
Shallow embedding of `apps/openmw/mwlua/luamanagerimp.cpp` (class `MWLua::LuaManager`),
the per-frame Lua script orchestrator of OpenMW.

Modelling conventions:
* Opaque payloads (Lua tables, SDL keysyms, deferred `Action` objects) are `Nat`s.
* A `LocalScripts` container is identified by a `ContainerId` allocated from a counter
  (standing for the C++ heap pointer); the contents of a container (its list of
  script instances with their serialized state) live in an association list.
* An object's `MWWorld::RefData` is modelled by `RefData`; `Ptr` carries the object
  id and the cell (only used by the player-resync logic).
* Script code is opaque: a `Behavior` oracle says, for each callback invocation made
  by the orchestrator, which global events, local events, deferred actions and UI
  messages the scripts enqueue during that callback.  Scripts cannot mutate the
  world synchronously (matching the deferred-action discipline of the code: all
  bindings only push onto the manager's queues).
* Observable effects of a frame (deliveries, drops with a diagnostic log, timer and
  update callbacks, applied actions) are recorded in a `LogEntry` trace.
-/

namespace MWLua

abbrev ObjectId := Nat
abbrev ContainerId := Nat
abbrev Key := Nat
abbrev Action := Nat

/-- `MWWorld::Ptr`: a live handle; `cell = none` models `!isInCell()`. -/
structure Ptr where
  id : ObjectId
  cell : Option Nat
  deriving DecidableEq, Repr

/-- `GlobalEvent{mEventName, mEventData}`. -/
structure GlobalEvent where
  mEventName : String
  mEventData : Nat
  deriving DecidableEq, Repr

/-- `LocalEvent{mDest, mEventName, mEventData}`. -/
structure LocalEvent where
  mDest : ObjectId
  mEventName : String
  mEventData : Nat
  deriving DecidableEq, Repr

/-- `LocalScripts::EngineEvent` variants used by luamanagerimp.cpp. -/
inductive EngineEvent where
  | OnActive : EngineEvent
  | OnInactive : EngineEvent
  | OnConsume (recordId : String) : EngineEvent
  deriving DecidableEq, Repr

/-- `LocalEngineEvent{mDest, mEvent}`. -/
structure LocalEngineEvent where
  mDest : ObjectId
  mEvent : EngineEvent
  deriving DecidableEq, Repr

/-- Per-object `MWWorld::RefData` slice used by the manager: the attached
`LocalScripts` container (if any), the CellRef record id (`"player"` for the
player) and `Class::isActor()`. -/
structure RefData where
  luaScripts : Option ContainerId
  refId : String
  isActor : Bool
  deriving DecidableEq, Repr

/-- Serialized contents of a scripts container: ordered `{scriptPath, stateBlob}`
pairs (`ESM::LuaScripts`). The in-memory container is modelled by the same data. -/
abbrev ScriptsData := List (String × Nat)

/-- One callback invocation the orchestrator makes into script code during a frame. -/
inductive Call where
  | GlobalTimers : Call
  | LocalTimers (c : ContainerId) : Call
  | GlobalRecvEvent (e : GlobalEvent) : Call
  | LocalRecvEvent (c : ContainerId) (e : LocalEvent) : Call
  | PlayerKeyPress (k : Key) : Call
  | RecvEngineEvent (c : ContainerId) (e : EngineEvent) : Call
  | LocalUpdate (c : ContainerId) : Call
  | GlobalPlayerAdded (id : ObjectId) : Call
  | GlobalActorActive (id : ObjectId) : Call
  | GlobalUpdate : Call
  deriving DecidableEq, Repr

/-- What the scripts enqueue onto the manager's queues during one callback. -/
structure Emission where
  globals : List GlobalEvent
  locals : List LocalEvent
  actions : List Action
  ui : List String
  deriving DecidableEq, Repr

/-- Opaque script behavior: emissions per callback invocation. -/
abbrev Behavior := Call → Emission

/-- Observable events of the orchestrator, in order of occurrence. -/
inductive LogEntry where
  | timers (c : Option ContainerId) : LogEntry
  | deliveredGlobal (e : GlobalEvent) : LogEntry
  | deliveredLocal (c : ContainerId) (e : LocalEvent) : LogEntry
  | droppedLocal (e : LocalEvent) : LogEntry
  | keyPress (c : ContainerId) (k : Key) : LogEntry
  | engineEvent (c : ContainerId) (e : EngineEvent) : LogEntry
  | droppedEngine (e : LocalEngineEvent) : LogEntry
  | instanceUpdate (c : ContainerId) : LogEntry
  | playerAdded (id : ObjectId) : LogEntry
  | actorActive (id : ObjectId) : LogEntry
  | globalUpdate : LogEntry
  | appliedAction (a : Action) : LogEntry
  | uiMessage (m : String) : LogEntry
  deriving DecidableEq, Repr

/-- The state of `LuaManager` (fields named after the C++ members; `registry` is
`mWorldView.getObjectRegistry()`'s set of registered ids, `objects` maps ids to
their `RefData`, `containers` maps container ids to contents). -/
structure ManagerState where
  mPlayer : Option Ptr
  mPlayerScripts : Option ContainerId
  mActiveLocalScripts : List ContainerId
  mGlobalEvents : List GlobalEvent
  mLocalEvents : List LocalEvent
  mKeyPressEvents : List Key
  mActorAddedEvents : List ObjectId
  mLocalEngineEvents : List LocalEngineEvent
  mPlayerChanged : Bool
  mActionQueue : List Action
  mUIMessages : List String
  mTeleportPlayerAction : Option Action
  mGlobalScripts : ScriptsData
  mGlobalScriptList : List String
  registry : List ObjectId
  objects : List (ObjectId × RefData)
  containers : List (ContainerId × ScriptsData)
  nextContainerId : ContainerId
  time : Nat
  deriving DecidableEq, Repr

/-- `ObjectRegistry::registerPtr`: idempotent registration. -/
def registerId (r : List ObjectId) (id : ObjectId) : List ObjectId :=
  if id ∈ r then r else r ++ [id]

/-- `ObjectRegistry::deregisterPtr`: removal, no-op if absent. -/
def deregisterId (r : List ObjectId) (id : ObjectId) : List ObjectId :=
  r.filter (fun x => x ≠ id)

/-- `ptr.getRefData()` for the object with the given id. -/
def refDataOf (s : ManagerState) (id : ObjectId) : Option RefData :=
  s.objects.lookup id

/-- `ptr.getRefData().getLuaScripts()`. -/
def scriptsOf (s : ManagerState) (id : ObjectId) : Option ContainerId :=
  (refDataOf s id).bind RefData.luaScripts

/-- `LObject(id, registry).isValid()`: the id resolves to a loaded object. -/
def isValidObj (s : ManagerState) (id : ObjectId) : Bool :=
  s.registry.contains id

/-- The container a local event to `id` is delivered to, if any
(`obj.isValid() ? obj.ptr().getRefData().getLuaScripts() : nullptr`). -/
def luaTargetOf (s : ManagerState) (id : ObjectId) : Option ContainerId :=
  if isValidObj s id then scriptsOf s id else none

/-- `refData.setLuaScripts(v)` on the object with the given id. -/
def setLuaScripts (objs : List (ObjectId × RefData)) (id : ObjectId)
    (v : Option ContainerId) : List (ObjectId × RefData) :=
  objs.map (fun p => if p.1 = id then (p.1, { p.2 with luaScripts := v }) else p)

/-- `std::set::insert` on the active-containers set (insertion order kept). -/
def insertActive (l : List ContainerId) (c : ContainerId) : List ContainerId :=
  if c ∈ l then l else l ++ [c]

/-- `std::set::erase` on the active-containers set. -/
def eraseActive (l : List ContainerId) (c : ContainerId) : List ContainerId :=
  l.filter (fun x => x ≠ c)

/-- Replace the contents of container `cid` by `f` of its old contents. -/
def updateContainer (cs : List (ContainerId × ScriptsData)) (cid : ContainerId)
    (f : ScriptsData → ScriptsData) : List (ContainerId × ScriptsData) :=
  cs.map (fun p => if p.1 = cid then (p.1, f p.2) else p)

/-- Modelled from the spec: `ScriptsContainer::save` (§4.2) — serialize every
instance's opaque state keyed by script path, in registration order.  The
container code itself is outside this translation unit. -/
def saveC (c : ScriptsData) : ScriptsData := c

/-- Modelled from the spec: `ScriptsContainer::addNewScript` (§4.2) — returns
failure when the source is missing or fails initial execution (`env path =
false`), otherwise starts the script with a fresh (empty, modelled `0`) state. -/
def addNewScript (env : String → Bool) (c : ScriptsData) (path : String) :
    ScriptsData :=
  if env path then c ++ [(path, 0)] else c

/-- Modelled from the spec: `ScriptsContainer::removeAllScripts` (§4.2). -/
def removeAllScripts (_c : ScriptsData) : ScriptsData := []

/-- Modelled from the spec: `ScriptsContainer::load(data, resetScriptList)`
(§4.2) — deserialize every instance's state keyed by script path; on load a
script whose source is missing is skipped with a warning.  With
`resetScriptList = false` the current script list is kept and each script's
state is taken from `data` when present. -/
def loadC (env : String → Bool) (data : ScriptsData) (resetScriptList : Bool)
    (c : ScriptsData) : ScriptsData :=
  if resetScriptList then data.filter (fun p => env p.1)
  else c.map (fun p => (p.1, (data.lookup p.1).getD p.2))

/-- `LuaManager::createLocalScripts(ptr)`: allocates a fresh container, makes it
the player container when the CellRef record id is `"player"`, and attaches it
to the object's RefData.  Returns the new container id. -/
def createLocalScripts (s : ManagerState) (pid : ObjectId) :
    ManagerState × ContainerId :=
  let cid := s.nextContainerId
  let isPlayerRecord := (refDataOf s pid).map RefData.refId = some "player"
  ({ s with
      containers := s.containers ++ [(cid, [])]
      nextContainerId := cid + 1
      mPlayerScripts := if isPlayerRecord then some cid else s.mPlayerScripts
      objects := setLuaScripts s.objects pid (some cid) }, cid)

/-- `LuaManager::registerObject(ptr)`. -/
def registerObject (s : ManagerState) (id : ObjectId) : ManagerState :=
  { s with registry := registerId s.registry id }

/-- `LuaManager::deregisterObject(ptr)`. -/
def deregisterObject (s : ManagerState) (id : ObjectId) : ManagerState :=
  { s with registry := deregisterId s.registry id }

/-- `LuaManager::keyPressed(arg)`: buffer the keysym. -/
def keyPressed (s : ManagerState) (k : Key) : ManagerState :=
  { s with mKeyPressEvents := s.mKeyPressEvents ++ [k] }

/-- `LuaManager::appliedToObject(toPtr, recordId, fromPtr)`. -/
def appliedToObject (s : ManagerState) (toId : ObjectId) (recordId : String) :
    ManagerState :=
  { s with mLocalEngineEvents :=
      s.mLocalEngineEvents ++ [⟨toId, EngineEvent.OnConsume recordId⟩] }

/-- `LuaManager::addLocalScript(ptr, scriptPath)`: creates a container (inserted
into the active set) when the object has none, then starts the script in it. -/
def addLocalScript (env : String → Bool) (s : ManagerState) (pid : ObjectId)
    (path : String) : ManagerState :=
  let s1 :=
    match scriptsOf s pid with
    | some _ => s
    | none =>
        let (s2, cid) := createLocalScripts s pid
        { s2 with mActiveLocalScripts := insertActive s2.mActiveLocalScripts cid }
  match scriptsOf s1 pid with
  | some cid =>
      { s1 with containers :=
          updateContainer s1.containers cid (fun c => addNewScript env c path) }
  | none => s1

/-- `LuaManager::objectAddedToScene(ptr)`. -/
def objectAddedToScene (s : ManagerState) (ptr : Ptr) : ManagerState :=
  let s1 := { s with registry := registerId s.registry ptr.id }
  let s2 :=
    match scriptsOf s1 ptr.id with
    | some c =>
        { s1 with
            mActiveLocalScripts := insertActive s1.mActiveLocalScripts c
            mLocalEngineEvents :=
              s1.mLocalEngineEvents ++ [⟨ptr.id, EngineEvent.OnActive⟩] }
    | none => s1
  if ((refDataOf s2 ptr.id).map RefData.isActor = some true)
      ∧ s2.mPlayer ≠ some ptr then
    { s2 with mActorAddedEvents := s2.mActorAddedEvents ++ [ptr.id] }
  else s2

/-- `LuaManager::objectRemovedFromScene(ptr)`. -/
def objectRemovedFromScene (s : ManagerState) (ptr : Ptr) : ManagerState :=
  match scriptsOf s ptr.id with
  | some c =>
      let s1 := { s with mActiveLocalScripts := eraseActive s.mActiveLocalScripts c }
      if s1.registry.contains ptr.id then
        { s1 with mLocalEngineEvents :=
            s1.mLocalEngineEvents ++ [⟨ptr.id, EngineEvent.OnInactive⟩] }
      else s1
  | none => s

/-- `LuaManager::setupPlayer(ptr)`: fatal if the player is already initialized;
otherwise registers the object, records it as the player, lazily creates its
container, activates it and queues the `OnActive` engine event. -/
def setupPlayer (s : ManagerState) (ptr : Ptr) : Except String ManagerState :=
  if s.mPlayer.isSome then .error "Player is initialized twice"
  else
    let s1 := { s with registry := registerId s.registry ptr.id, mPlayer := some ptr }
    let s2 :=
      if (scriptsOf s1 ptr.id).isNone then (createLocalScripts s1 ptr.id).1 else s1
    match s2.mPlayerScripts with
    | none => .error "mPlayerScripts not initialized"
    | some pc =>
        .ok { s2 with
            mActiveLocalScripts := insertActive s2.mActiveLocalScripts pc
            mLocalEngineEvents :=
              s2.mLocalEngineEvents ++ [⟨ptr.id, EngineEvent.OnActive⟩]
            mPlayerChanged := true }

/-- `LuaManager::saveLocalScripts(ptr, data)`: the result written into `data`. -/
def saveLocalScripts (s : ManagerState) (pid : ObjectId) : ScriptsData :=
  match scriptsOf s pid with
  | some cid => saveC ((s.containers.lookup cid).getD [])
  | none => []

/-- `LuaManager::loadLocalScripts(ptr, data)`: an empty list tears down any
existing container; otherwise a fresh container is created and the serialized
state loaded into it (the Ptr is registered only around the load). -/
def loadLocalScripts (env : String → Bool) (s : ManagerState) (pid : ObjectId)
    (data : ScriptsData) : ManagerState :=
  if data = [] then
    if (scriptsOf s pid).isSome then
      { s with objects := setLuaScripts s.objects pid none }
    else s
  else
    let s1 := { s with registry := registerId s.registry pid }
    let (s2, cid) := createLocalScripts s1 pid
    let s3 := { s2 with
        containers :=
          updateContainer s2.containers cid (fun c => loadC env data true c) }
    { s3 with registry := deregisterId s3.registry pid }

/-- `LuaManager::reloadAllScripts`: global container save → remove all → re-add
the authoritative list → load back; every registered object's container is
saved and reloaded in place. -/
def reloadAllScripts (env : String → Bool) (s : ManagerState) : ManagerState :=
  let data := saveC s.mGlobalScripts
  let g0 := removeAllScripts s.mGlobalScripts
  let g1 := s.mGlobalScriptList.foldl (addNewScript env) g0
  let g2 := loadC env data false g1
  let cs := s.registry.foldl
    (fun cs id =>
      match scriptsOf s id with
      | some cid => updateContainer cs cid (fun c => loadC env (saveC c) true c)
      | none => cs)
    s.containers
  { s with mGlobalScripts := g2, containers := cs }

/-- `LuaManager::clear()`. -/
def clear (s : ManagerState) : ManagerState :=
  let s1 := { s with
      mActiveLocalScripts := []
      mLocalEvents := []
      mGlobalEvents := []
      mKeyPressEvents := []
      mActorAddedEvents := []
      mLocalEngineEvents := []
      mPlayerChanged := false
      mPlayerScripts := none
      registry := [] }
  match s1.mPlayer with
  | some p =>
      { s1 with objects := setLuaScripts s1.objects p.id none, mPlayer := none }
  | none => s1

/-- `LuaManager::applyQueuedChanges()`: show queued UI messages, apply the
deferred actions in enqueue order, then the pending teleport action. -/
def applyQueuedChanges (s : ManagerState) : ManagerState × List LogEntry :=
  let log := s.mUIMessages.map LogEntry.uiMessage
    ++ s.mActionQueue.map LogEntry.appliedAction
    ++ (match s.mTeleportPlayerAction with
        | some a => [LogEntry.appliedAction a]
        | none => [])
  ({ s with mUIMessages := [], mActionQueue := [], mTeleportPlayerAction := none },
    log)

/-- Per-frame dispatch accumulator: the observable trace so far and the live
queues being refilled (by script emissions) while the swapped-out buffers are
dispatched. -/
structure Frame where
  log : List LogEntry
  accG : List GlobalEvent
  accL : List LocalEvent
  accA : List Action
  accU : List String
  deriving DecidableEq, Repr

/-- Make one callback into script code: its emissions land on the live queues. -/
def Frame.call (b : Behavior) (f : Frame) (c : Call) : Frame :=
  { f with
      accG := f.accG ++ (b c).globals
      accL := f.accL ++ (b c).locals
      accA := f.accA ++ (b c).actions
      accU := f.accU ++ (b c).ui }

/-- Make a sequence of callbacks. -/
def Frame.calls (b : Behavior) (f : Frame) : List Call → Frame
  | [] => f
  | c :: cs => Frame.calls b (Frame.call b f c) cs

/-- Record observable events in the trace. -/
def Frame.addLog (f : Frame) (es : List LogEntry) : Frame :=
  { f with log := f.log ++ es }

/-- Run one dispatch loop: for each item, record its log entries, then make its
callbacks. -/
def runSeq (b : Behavior) (step : α → List LogEntry × List Call) :
    List α → Frame → Frame
  | [], f => f
  | x :: xs, f =>
      runSeq b step xs (Frame.calls b (Frame.addLog f (step x).1) (step x).2)

/-- `scripts->processTimers` for one active container. -/
def localTimerStep (c : ContainerId) : List LogEntry × List Call :=
  ([LogEntry.timers (some c)], [Call.LocalTimers c])

/-- `mGlobalScripts.receiveEvent` for one queued global event. -/
def globalRecvStep (e : GlobalEvent) : List LogEntry × List Call :=
  ([LogEntry.deliveredGlobal e], [Call.GlobalRecvEvent e])

/-- One queued local event: delivered when the destination resolves to a loaded
object with attached scripts, otherwise dropped with a diagnostic log line. -/
def localRecvStep (s : ManagerState) (e : LocalEvent) :
    List LogEntry × List Call :=
  match luaTargetOf s e.mDest with
  | some c => ([LogEntry.deliveredLocal c e], [Call.LocalRecvEvent c e])
  | none => ([LogEntry.droppedLocal e], [])

/-- `mPlayerScripts->keyPress` for one buffered key. -/
def keyStep (pc : ContainerId) (k : Key) : List LogEntry × List Call :=
  ([LogEntry.keyPress pc k], [Call.PlayerKeyPress k])

/-- One queued local engine event: a missing object logs a diagnostic; a loaded
object with no scripts is skipped silently. -/
def engineStep (s : ManagerState) (e : LocalEngineEvent) :
    List LogEntry × List Call :=
  if isValidObj s e.mDest then
    match scriptsOf s e.mDest with
    | some c =>
        ([LogEntry.engineEvent c e.mEvent], [Call.RecvEngineEvent c e.mEvent])
    | none => ([], [])
  else ([LogEntry.droppedEngine e], [])

/-- `scripts->update(dt)` for one active container. -/
def instUpdStep (c : ContainerId) : List LogEntry × List Call :=
  ([LogEntry.instanceUpdate c], [Call.LocalUpdate c])

/-- `mGlobalScripts.actorActive` for one queued actor id. -/
def actorStep (id : ObjectId) : List LogEntry × List Call :=
  ([LogEntry.actorActive id], [Call.GlobalActorActive id])

/-- `getId(mPlayer)` (0 stands for the empty RefNum). -/
def playerIdOf (s : ManagerState) : ObjectId :=
  match s.mPlayer with
  | some p => p.id
  | none => 0

/-- The non-paused body of `LuaManager::update` after the player resync: swap
the event queues out, advance time and fire timers, deliver the swapped-out
global and local events, deliver buffered key presses to the player container,
deliver local engine events, run per-instance updates, then the global engine
handlers and the global update. -/
def updateCore (b : Behavior) (s : ManagerState) (dt : Nat) :
    ManagerState × List LogEntry :=
  let globalEvents := s.mGlobalEvents
  let localEvents := s.mLocalEvents
  let f0 : Frame := ⟨[], [], [], [], []⟩
  let f1 := Frame.calls b (Frame.addLog f0 [LogEntry.timers none]) [Call.GlobalTimers]
  let f2 := runSeq b localTimerStep s.mActiveLocalScripts f1
  let f3 := runSeq b globalRecvStep globalEvents f2
  let f4 := runSeq b (localRecvStep s) localEvents f3
  let f5 :=
    match s.mPlayerScripts with
    | some pc => runSeq b (keyStep pc) s.mKeyPressEvents f4
    | none => f4
  let f6 := runSeq b (engineStep s) s.mLocalEngineEvents f5
  let f7 := runSeq b instUpdStep s.mActiveLocalScripts f6
  let f8 :=
    if s.mPlayerChanged then
      Frame.calls b (Frame.addLog f7 [LogEntry.playerAdded (playerIdOf s)])
        [Call.GlobalPlayerAdded (playerIdOf s)]
    else f7
  let f9 := runSeq b actorStep s.mActorAddedEvents f8
  let fA := Frame.calls b (Frame.addLog f9 [LogEntry.globalUpdate]) [Call.GlobalUpdate]
  ({ s with
      time := s.time + dt
      mGlobalEvents := fA.accG
      mLocalEvents := fA.accL
      mKeyPressEvents := []
      mLocalEngineEvents := []
      mActorAddedEvents := []
      mPlayerChanged := false
      mActionQueue := s.mActionQueue ++ fA.accA
      mUIMessages := s.mUIMessages ++ fA.accU }, fA.log)

/-- The player consistency check and cell resync at the top of
`LuaManager::update`: a changed player RefNum is a fatal logic error; a cell
change re-registers the new player Ptr. -/
def resyncPlayer (s : ManagerState) (newPlayerPtr : Ptr) :
    Except String ManagerState :=
  match s.mPlayer with
  | none => .ok s
  | some p =>
      if p.id ≠ newPlayerPtr.id then
        .error "Player Refnum was changed unexpectedly"
      else if p.cell.isNone ∨ newPlayerPtr.cell.isNone ∨ p.cell ≠ newPlayerPtr.cell then
        .ok { s with
            mPlayer := some newPlayerPtr
            registry := registerId s.registry newPlayerPtr.id }
      else .ok s

/-- `LuaManager::update(paused, dt)`; `newPlayerPtr` is what
`getWorld()->getPlayerPtr()` returns this frame.  Paused frames only clear the
key-press buffer. -/
def update (b : Behavior) (s : ManagerState) (paused : Bool) (dt : Nat)
    (newPlayerPtr : Ptr) : Except String (ManagerState × List LogEntry) :=
  match resyncPlayer s newPlayerPtr with
  | .error msg => .error msg
  | .ok s0 =>
      if paused then .ok ({ s0 with mKeyPressEvents := [] }, [])
      else .ok (updateCore b s0 dt)

/-- The callbacks one dispatch loop makes, in order. -/
def stepCalls (step : α → List LogEntry × List Call) (xs : List α) : List Call :=
  (xs.map (fun x => (step x).2)).flatten

/-- The log entries one dispatch loop records, in order. -/
def stepLogs (step : α → List LogEntry × List Call) (xs : List α) :
    List LogEntry :=
  (xs.map (fun x => (step x).1)).flatten

/-- All callbacks a non-paused frame starting from (post-resync) state `s`
makes, in order. -/
def callsOf (s : ManagerState) : List Call :=
  [Call.GlobalTimers]
    ++ stepCalls localTimerStep s.mActiveLocalScripts
    ++ stepCalls globalRecvStep s.mGlobalEvents
    ++ stepCalls (localRecvStep s) s.mLocalEvents
    ++ (match s.mPlayerScripts with
        | some pc => stepCalls (keyStep pc) s.mKeyPressEvents
        | none => [])
    ++ stepCalls (engineStep s) s.mLocalEngineEvents
    ++ stepCalls instUpdStep s.mActiveLocalScripts
    ++ (if s.mPlayerChanged then [Call.GlobalPlayerAdded (playerIdOf s)] else [])
    ++ stepCalls actorStep s.mActorAddedEvents
    ++ [Call.GlobalUpdate]

/-- All global events scripts emit over a sequence of callbacks, in order. -/
def emittedGlobals (b : Behavior) (cs : List Call) : List GlobalEvent :=
  (cs.map (fun c => (b c).globals)).flatten

/-- All local events scripts emit over a sequence of callbacks, in order. -/
def emittedLocals (b : Behavior) (cs : List Call) : List LocalEvent :=
  (cs.map (fun c => (b c).locals)).flatten

/-- All deferred actions scripts emit over a sequence of callbacks, in order. -/
def emittedActions (b : Behavior) (cs : List Call) : List Action :=
  (cs.map (fun c => (b c).actions)).flatten

/-- Selector for `deliveredGlobal` log entries. -/
def isDeliveredGlobal : LogEntry → Option GlobalEvent
  | LogEntry.deliveredGlobal g => some g
  | _ => none

/-- Selector for processed (delivered or dropped) local-event log entries. -/
def isProcessedLocal : LogEntry → Option LocalEvent
  | LogEntry.deliveredLocal _ l => some l
  | LogEntry.droppedLocal l => some l
  | _ => none

/-- Selector for `droppedLocal` log entries. -/
def isDroppedLocal : LogEntry → Option LocalEvent
  | LogEntry.droppedLocal l => some l
  | _ => none

/-- Selector for `deliveredLocal` log entries, with their target container. -/
def isDeliveredLocal : LogEntry → Option (ContainerId × LocalEvent)
  | LogEntry.deliveredLocal c l => some (c, l)
  | _ => none

/-- Selector for `keyPress` log entries. -/
def isKeyPress : LogEntry → Option (ContainerId × Key)
  | LogEntry.keyPress c k => some (c, k)
  | _ => none

/-- Selector for `appliedAction` log entries. -/
def isAppliedAction : LogEntry → Option Action
  | LogEntry.appliedAction a => some a
  | _ => none

/-- Selector for `instanceUpdate` log entries. -/
def isInstanceUpdate : LogEntry → Option ContainerId
  | LogEntry.instanceUpdate c => some c
  | _ => none

/-- The global events a trace delivered, in order. -/
def deliveredGlobalsOf (log : List LogEntry) : List GlobalEvent :=
  log.filterMap isDeliveredGlobal

/-- The local events a trace processed (delivered or dropped), in order. -/
def processedLocalsOf (log : List LogEntry) : List LocalEvent :=
  log.filterMap isProcessedLocal

/-- The local events a trace dropped, in order. -/
def droppedLocalsOf (log : List LogEntry) : List LocalEvent :=
  log.filterMap isDroppedLocal

/-- The (container, local event) deliveries of a trace, in order. -/
def deliveredLocalPairsOf (log : List LogEntry) : List (ContainerId × LocalEvent) :=
  log.filterMap isDeliveredLocal

/-- The (container, key) key-press deliveries of a trace, in order. -/
def keyPressesOf (log : List LogEntry) : List (ContainerId × Key) :=
  log.filterMap isKeyPress

/-- The deferred actions a trace applied, in order. -/
def appliedActionsOf (log : List LogEntry) : List Action :=
  log.filterMap isAppliedAction

/-- The per-instance update callbacks a trace ran, in order. -/
def instanceUpdatesOf (log : List LogEntry) : List ContainerId :=
  log.filterMap isInstanceUpdate

theorem emittedGlobals_append (b : Behavior) (l1 l2 : List Call) :
    emittedGlobals b (l1 ++ l2) = emittedGlobals b l1 ++ emittedGlobals b l2 := by
  simp [emittedGlobals]

theorem emittedLocals_append (b : Behavior) (l1 l2 : List Call) :
    emittedLocals b (l1 ++ l2) = emittedLocals b l1 ++ emittedLocals b l2 := by
  simp [emittedLocals]

theorem emittedActions_append (b : Behavior) (l1 l2 : List Call) :
    emittedActions b (l1 ++ l2) = emittedActions b l1 ++ emittedActions b l2 := by
  simp [emittedActions]

theorem calls_log (b : Behavior) (cs : List Call) :
    ∀ f : Frame, (Frame.calls b f cs).log = f.log := by
  induction cs with
  | nil => intro f; rfl
  | cons c cs ih => intro f; exact ih (Frame.call b f c)

theorem calls_accG (b : Behavior) (cs : List Call) :
    ∀ f : Frame, (Frame.calls b f cs).accG = f.accG ++ emittedGlobals b cs := by
  induction cs with
  | nil => intro f; simp [Frame.calls, emittedGlobals]
  | cons c cs ih =>
      intro f
      show (Frame.calls b (Frame.call b f c) cs).accG = _
      rw [ih]
      simp [Frame.call, emittedGlobals]

theorem calls_accL (b : Behavior) (cs : List Call) :
    ∀ f : Frame, (Frame.calls b f cs).accL = f.accL ++ emittedLocals b cs := by
  induction cs with
  | nil => intro f; simp [Frame.calls, emittedLocals]
  | cons c cs ih =>
      intro f
      show (Frame.calls b (Frame.call b f c) cs).accL = _
      rw [ih]
      simp [Frame.call, emittedLocals]

theorem calls_accA (b : Behavior) (cs : List Call) :
    ∀ f : Frame, (Frame.calls b f cs).accA = f.accA ++ emittedActions b cs := by
  induction cs with
  | nil => intro f; simp [Frame.calls, emittedActions]
  | cons c cs ih =>
      intro f
      show (Frame.calls b (Frame.call b f c) cs).accA = _
      rw [ih]
      simp [Frame.call, emittedActions]

theorem stepLogs_cons (step : α → List LogEntry × List Call) (x : α) (xs : List α) :
    stepLogs step (x :: xs) = (step x).1 ++ stepLogs step xs := by
  simp [stepLogs]

theorem stepCalls_cons (step : α → List LogEntry × List Call) (x : α) (xs : List α) :
    stepCalls step (x :: xs) = (step x).2 ++ stepCalls step xs := by
  simp [stepCalls]

theorem runSeq_log (b : Behavior) (step : α → List LogEntry × List Call)
    (xs : List α) : ∀ f : Frame,
    (runSeq b step xs f).log = f.log ++ stepLogs step xs := by
  induction xs with
  | nil => intro f; simp [runSeq, stepLogs]
  | cons x xs ih =>
      intro f
      show (runSeq b step xs _).log = _
      rw [ih, calls_log, stepLogs_cons]
      simp [Frame.addLog]

theorem runSeq_accG (b : Behavior) (step : α → List LogEntry × List Call)
    (xs : List α) : ∀ f : Frame,
    (runSeq b step xs f).accG = f.accG ++ emittedGlobals b (stepCalls step xs) := by
  induction xs with
  | nil => intro f; simp [runSeq, stepCalls, emittedGlobals]
  | cons x xs ih =>
      intro f
      show (runSeq b step xs _).accG = _
      rw [ih, calls_accG, stepCalls_cons, emittedGlobals_append]
      simp [Frame.addLog]

theorem runSeq_accL (b : Behavior) (step : α → List LogEntry × List Call)
    (xs : List α) : ∀ f : Frame,
    (runSeq b step xs f).accL = f.accL ++ emittedLocals b (stepCalls step xs) := by
  induction xs with
  | nil => intro f; simp [runSeq, stepCalls, emittedLocals]
  | cons x xs ih =>
      intro f
      show (runSeq b step xs _).accL = _
      rw [ih, calls_accL, stepCalls_cons, emittedLocals_append]
      simp [Frame.addLog]

theorem runSeq_accA (b : Behavior) (step : α → List LogEntry × List Call)
    (xs : List α) : ∀ f : Frame,
    (runSeq b step xs f).accA = f.accA ++ emittedActions b (stepCalls step xs) := by
  induction xs with
  | nil => intro f; simp [runSeq, stepCalls, emittedActions]
  | cons x xs ih =>
      intro f
      show (runSeq b step xs _).accA = _
      rw [ih, calls_accA, stepCalls_cons, emittedActions_append]
      simp [Frame.addLog]

/-- The log entries a non-paused frame starting from (post-resync) state `s`
records, in order. -/
def logOf (s : ManagerState) : List LogEntry :=
  [LogEntry.timers none]
    ++ stepLogs localTimerStep s.mActiveLocalScripts
    ++ stepLogs globalRecvStep s.mGlobalEvents
    ++ stepLogs (localRecvStep s) s.mLocalEvents
    ++ (match s.mPlayerScripts with
        | some pc => stepLogs (keyStep pc) s.mKeyPressEvents
        | none => [])
    ++ stepLogs (engineStep s) s.mLocalEngineEvents
    ++ stepLogs instUpdStep s.mActiveLocalScripts
    ++ (if s.mPlayerChanged then [LogEntry.playerAdded (playerIdOf s)] else [])
    ++ stepLogs actorStep s.mActorAddedEvents
    ++ [LogEntry.globalUpdate]

theorem updateCore_log (b : Behavior) (s : ManagerState) (dt : Nat) :
    (updateCore b s dt).2 = logOf s := by
  cases hpc : s.mPlayerScripts with
  | none =>
      cases hch : s.mPlayerChanged
      all_goals
        simp [updateCore, logOf, hpc, hch, calls_log, runSeq_log, Frame.addLog,
          List.append_assoc]
  | some pc =>
      cases hch : s.mPlayerChanged
      all_goals
        simp [updateCore, logOf, hpc, hch, calls_log, runSeq_log, Frame.addLog,
          List.append_assoc]

theorem updateCore_globals (b : Behavior) (s : ManagerState) (dt : Nat) :
    (updateCore b s dt).1.mGlobalEvents = emittedGlobals b (callsOf s) := by
  cases hpc : s.mPlayerScripts with
  | none =>
      cases hch : s.mPlayerChanged
      all_goals
        simp [updateCore, callsOf, hpc, hch, calls_accG, runSeq_accG,
          emittedGlobals_append, Frame.addLog, emittedGlobals, List.append_assoc]
  | some pc =>
      cases hch : s.mPlayerChanged
      all_goals
        simp [updateCore, callsOf, hpc, hch, calls_accG, runSeq_accG,
          emittedGlobals_append, Frame.addLog, emittedGlobals, List.append_assoc]

theorem updateCore_locals (b : Behavior) (s : ManagerState) (dt : Nat) :
    (updateCore b s dt).1.mLocalEvents = emittedLocals b (callsOf s) := by
  cases hpc : s.mPlayerScripts with
  | none =>
      cases hch : s.mPlayerChanged
      all_goals
        simp [updateCore, callsOf, hpc, hch, calls_accL, runSeq_accL,
          emittedLocals_append, Frame.addLog, emittedLocals, List.append_assoc]
  | some pc =>
      cases hch : s.mPlayerChanged
      all_goals
        simp [updateCore, callsOf, hpc, hch, calls_accL, runSeq_accL,
          emittedLocals_append, Frame.addLog, emittedLocals, List.append_assoc]

theorem updateCore_actions (b : Behavior) (s : ManagerState) (dt : Nat) :
    (updateCore b s dt).1.mActionQueue
      = s.mActionQueue ++ emittedActions b (callsOf s) := by
  cases hpc : s.mPlayerScripts with
  | none =>
      cases hch : s.mPlayerChanged
      all_goals
        simp [updateCore, callsOf, hpc, hch, calls_accA, runSeq_accA,
          emittedActions_append, Frame.addLog, emittedActions, List.append_assoc]
  | some pc =>
      cases hch : s.mPlayerChanged
      all_goals
        simp [updateCore, callsOf, hpc, hch, calls_accA, runSeq_accA,
          emittedActions_append, Frame.addLog, emittedActions, List.append_assoc]

theorem updateCore_time (b : Behavior) (s : ManagerState) (dt : Nat) :
    (updateCore b s dt).1.time = s.time + dt := rfl

theorem updateCore_keys (b : Behavior) (s : ManagerState) (dt : Nat) :
    (updateCore b s dt).1.mKeyPressEvents = [] := rfl

theorem updateCore_engineEvents (b : Behavior) (s : ManagerState) (dt : Nat) :
    (updateCore b s dt).1.mLocalEngineEvents = [] := rfl

theorem updateCore_actors (b : Behavior) (s : ManagerState) (dt : Nat) :
    (updateCore b s dt).1.mActorAddedEvents = [] := rfl

theorem updateCore_playerChanged (b : Behavior) (s : ManagerState) (dt : Nat) :
    (updateCore b s dt).1.mPlayerChanged = false := rfl

theorem updateCore_active (b : Behavior) (s : ManagerState) (dt : Nat) :
    (updateCore b s dt).1.mActiveLocalScripts = s.mActiveLocalScripts := rfl

theorem updateCore_player (b : Behavior) (s : ManagerState) (dt : Nat) :
    (updateCore b s dt).1.mPlayer = s.mPlayer := rfl

theorem updateCore_playerScripts (b : Behavior) (s : ManagerState) (dt : Nat) :
    (updateCore b s dt).1.mPlayerScripts = s.mPlayerScripts := rfl

theorem updateCore_registry (b : Behavior) (s : ManagerState) (dt : Nat) :
    (updateCore b s dt).1.registry = s.registry := rfl

theorem updateCore_objects (b : Behavior) (s : ManagerState) (dt : Nat) :
    (updateCore b s dt).1.objects = s.objects := rfl

theorem updateCore_containers (b : Behavior) (s : ManagerState) (dt : Nat) :
    (updateCore b s dt).1.containers = s.containers := rfl

theorem updateCore_teleport (b : Behavior) (s : ManagerState) (dt : Nat) :
    (updateCore b s dt).1.mTeleportPlayerAction = s.mTeleportPlayerAction := rfl

theorem updateCore_globalScripts (b : Behavior) (s : ManagerState) (dt : Nat) :
    (updateCore b s dt).1.mGlobalScripts = s.mGlobalScripts := rfl

theorem updateCore_nextContainerId (b : Behavior) (s : ManagerState) (dt : Nat) :
    (updateCore b s dt).1.nextContainerId = s.nextContainerId := rfl

theorem filterMap_stepLogs_nil {α β : Type} (f : LogEntry → Option β)
    (step : α → List LogEntry × List Call) (xs : List α)
    (h : ∀ x ∈ xs, ((step x).1).filterMap f = []) :
    (stepLogs step xs).filterMap f = [] := by
  induction xs with
  | nil => simp [stepLogs]
  | cons x xs ih =>
      rw [stepLogs_cons, List.filterMap_append, h x (by simp),
        ih (fun y hy => h y (by simp [hy]))]
      rfl

theorem filterMap_stepLogs_fm {α β : Type} (f : LogEntry → Option β)
    (g : α → Option β) (step : α → List LogEntry × List Call) (xs : List α)
    (h : ∀ x ∈ xs, ((step x).1).filterMap f = (g x).toList) :
    (stepLogs step xs).filterMap f = xs.filterMap g := by
  induction xs with
  | nil => simp [stepLogs]
  | cons x xs ih =>
      rw [stepLogs_cons, List.filterMap_append, h x (by simp),
        ih (fun y hy => h y (by simp [hy])), List.filterMap_cons]
      cases g x <;> simp

theorem filterMap_some_eq_map {α β : Type} (g : α → β) (xs : List α) :
    xs.filterMap (fun x => some (g x)) = xs.map g := by
  induction xs with
  | nil => rfl
  | cons x xs ih => simp [List.filterMap_cons, ih]

theorem filterMap_stepLogs_map {α β : Type} (f : LogEntry → Option β)
    (g : α → β) (step : α → List LogEntry × List Call) (xs : List α)
    (h : ∀ x ∈ xs, ((step x).1).filterMap f = [g x]) :
    (stepLogs step xs).filterMap f = xs.map g := by
  rw [filterMap_stepLogs_fm f (fun x => some (g x)) step xs
    (fun x hx => by rw [h x hx]; rfl)]
  exact filterMap_some_eq_map g xs

theorem deliveredGlobalsOf_logOf (s : ManagerState) :
    deliveredGlobalsOf (logOf s) = s.mGlobalEvents := by
  have hT := filterMap_stepLogs_nil isDeliveredGlobal localTimerStep
    s.mActiveLocalScripts (fun c _ => by simp [localTimerStep, isDeliveredGlobal])
  have hG := filterMap_stepLogs_map isDeliveredGlobal id globalRecvStep
    s.mGlobalEvents (fun e _ => by simp [globalRecvStep, isDeliveredGlobal])
  have hL := filterMap_stepLogs_nil isDeliveredGlobal (localRecvStep s)
    s.mLocalEvents (fun e _ => by
      cases h : luaTargetOf s e.mDest <;> simp [localRecvStep, h, isDeliveredGlobal])
  have hE := filterMap_stepLogs_nil isDeliveredGlobal (engineStep s)
    s.mLocalEngineEvents (fun e _ => by
      cases hv : isValidObj s e.mDest
      · simp [engineStep, hv, isDeliveredGlobal]
      · cases h2 : scriptsOf s e.mDest <;>
          simp [engineStep, hv, h2, isDeliveredGlobal])
  have hU := filterMap_stepLogs_nil isDeliveredGlobal instUpdStep
    s.mActiveLocalScripts (fun c _ => by simp [instUpdStep, isDeliveredGlobal])
  have hA := filterMap_stepLogs_nil isDeliveredGlobal actorStep
    s.mActorAddedEvents (fun i _ => by simp [actorStep, isDeliveredGlobal])
  cases hpc : s.mPlayerScripts with
  | none =>
      cases hch : s.mPlayerChanged <;>
        simp [logOf, deliveredGlobalsOf, List.filterMap_append, hpc, hch,
          hT, hG, hL, hE, hU, hA, isDeliveredGlobal]
  | some pc =>
      have hK := filterMap_stepLogs_nil isDeliveredGlobal (keyStep pc)
        s.mKeyPressEvents (fun k _ => by simp [keyStep, isDeliveredGlobal])
      cases hch : s.mPlayerChanged <;>
        simp [logOf, deliveredGlobalsOf, List.filterMap_append, hpc, hch,
          hT, hG, hL, hE, hU, hA, hK, isDeliveredGlobal]

theorem processedLocalsOf_logOf (s : ManagerState) :
    processedLocalsOf (logOf s) = s.mLocalEvents := by
  have hT := filterMap_stepLogs_nil isProcessedLocal localTimerStep
    s.mActiveLocalScripts (fun c _ => by simp [localTimerStep, isProcessedLocal])
  have hG := filterMap_stepLogs_nil isProcessedLocal globalRecvStep
    s.mGlobalEvents (fun e _ => by simp [globalRecvStep, isProcessedLocal])
  have hL := filterMap_stepLogs_map isProcessedLocal id (localRecvStep s)
    s.mLocalEvents (fun e _ => by
      cases h : luaTargetOf s e.mDest <;> simp [localRecvStep, h, isProcessedLocal])
  have hE := filterMap_stepLogs_nil isProcessedLocal (engineStep s)
    s.mLocalEngineEvents (fun e _ => by
      cases hv : isValidObj s e.mDest
      · simp [engineStep, hv, isProcessedLocal]
      · cases h2 : scriptsOf s e.mDest <;>
          simp [engineStep, hv, h2, isProcessedLocal])
  have hU := filterMap_stepLogs_nil isProcessedLocal instUpdStep
    s.mActiveLocalScripts (fun c _ => by simp [instUpdStep, isProcessedLocal])
  have hA := filterMap_stepLogs_nil isProcessedLocal actorStep
    s.mActorAddedEvents (fun i _ => by simp [actorStep, isProcessedLocal])
  cases hpc : s.mPlayerScripts with
  | none =>
      cases hch : s.mPlayerChanged <;>
        simp [logOf, processedLocalsOf, List.filterMap_append, hpc, hch,
          hT, hG, hL, hE, hU, hA, isProcessedLocal]
  | some pc =>
      have hK := filterMap_stepLogs_nil isProcessedLocal (keyStep pc)
        s.mKeyPressEvents (fun k _ => by simp [keyStep, isProcessedLocal])
      cases hch : s.mPlayerChanged <;>
        simp [logOf, processedLocalsOf, List.filterMap_append, hpc, hch,
          hT, hG, hL, hE, hU, hA, hK, isProcessedLocal]

theorem droppedLocalsOf_logOf (s : ManagerState) :
    droppedLocalsOf (logOf s)
      = s.mLocalEvents.filterMap (fun e =>
          match luaTargetOf s e.mDest with
          | none => some e
          | some _ => none) := by
  have hT := filterMap_stepLogs_nil isDroppedLocal localTimerStep
    s.mActiveLocalScripts (fun c _ => by simp [localTimerStep, isDroppedLocal])
  have hG := filterMap_stepLogs_nil isDroppedLocal globalRecvStep
    s.mGlobalEvents (fun e _ => by simp [globalRecvStep, isDroppedLocal])
  have hL := filterMap_stepLogs_fm isDroppedLocal
    (fun e => match luaTargetOf s e.mDest with
      | none => some e
      | some _ => none)
    (localRecvStep s) s.mLocalEvents (fun e _ => by
      cases h : luaTargetOf s e.mDest <;> simp [localRecvStep, h, isDroppedLocal])
  have hE := filterMap_stepLogs_nil isDroppedLocal (engineStep s)
    s.mLocalEngineEvents (fun e _ => by
      cases hv : isValidObj s e.mDest
      · simp [engineStep, hv, isDroppedLocal]
      · cases h2 : scriptsOf s e.mDest <;>
          simp [engineStep, hv, h2, isDroppedLocal])
  have hU := filterMap_stepLogs_nil isDroppedLocal instUpdStep
    s.mActiveLocalScripts (fun c _ => by simp [instUpdStep, isDroppedLocal])
  have hA := filterMap_stepLogs_nil isDroppedLocal actorStep
    s.mActorAddedEvents (fun i _ => by simp [actorStep, isDroppedLocal])
  cases hpc : s.mPlayerScripts with
  | none =>
      cases hch : s.mPlayerChanged <;>
        simp [logOf, droppedLocalsOf, List.filterMap_append, hpc, hch,
          hT, hG, hL, hE, hU, hA, isDroppedLocal]
  | some pc =>
      have hK := filterMap_stepLogs_nil isDroppedLocal (keyStep pc)
        s.mKeyPressEvents (fun k _ => by simp [keyStep, isDroppedLocal])
      cases hch : s.mPlayerChanged <;>
        simp [logOf, droppedLocalsOf, List.filterMap_append, hpc, hch,
          hT, hG, hL, hE, hU, hA, hK, isDroppedLocal]

theorem deliveredLocalPairsOf_logOf (s : ManagerState) :
    deliveredLocalPairsOf (logOf s)
      = s.mLocalEvents.filterMap (fun e =>
          (luaTargetOf s e.mDest).map (fun c => (c, e))) := by
  have hT := filterMap_stepLogs_nil isDeliveredLocal localTimerStep
    s.mActiveLocalScripts (fun c _ => by simp [localTimerStep, isDeliveredLocal])
  have hG := filterMap_stepLogs_nil isDeliveredLocal globalRecvStep
    s.mGlobalEvents (fun e _ => by simp [globalRecvStep, isDeliveredLocal])
  have hL := filterMap_stepLogs_fm isDeliveredLocal
    (fun e => (luaTargetOf s e.mDest).map (fun c => (c, e)))
    (localRecvStep s) s.mLocalEvents (fun e _ => by
      cases h : luaTargetOf s e.mDest <;> simp [localRecvStep, h, isDeliveredLocal])
  have hE := filterMap_stepLogs_nil isDeliveredLocal (engineStep s)
    s.mLocalEngineEvents (fun e _ => by
      cases hv : isValidObj s e.mDest
      · simp [engineStep, hv, isDeliveredLocal]
      · cases h2 : scriptsOf s e.mDest <;>
          simp [engineStep, hv, h2, isDeliveredLocal])
  have hU := filterMap_stepLogs_nil isDeliveredLocal instUpdStep
    s.mActiveLocalScripts (fun c _ => by simp [instUpdStep, isDeliveredLocal])
  have hA := filterMap_stepLogs_nil isDeliveredLocal actorStep
    s.mActorAddedEvents (fun i _ => by simp [actorStep, isDeliveredLocal])
  cases hpc : s.mPlayerScripts with
  | none =>
      cases hch : s.mPlayerChanged <;>
        simp [logOf, deliveredLocalPairsOf, List.filterMap_append, hpc, hch,
          hT, hG, hL, hE, hU, hA, isDeliveredLocal]
  | some pc =>
      have hK := filterMap_stepLogs_nil isDeliveredLocal (keyStep pc)
        s.mKeyPressEvents (fun k _ => by simp [keyStep, isDeliveredLocal])
      cases hch : s.mPlayerChanged <;>
        simp [logOf, deliveredLocalPairsOf, List.filterMap_append, hpc, hch,
          hT, hG, hL, hE, hU, hA, hK, isDeliveredLocal]

theorem keyPressesOf_logOf_some (s : ManagerState) (pc : ContainerId)
    (hpc : s.mPlayerScripts = some pc) :
    keyPressesOf (logOf s) = s.mKeyPressEvents.map (fun k => (pc, k)) := by
  have hT := filterMap_stepLogs_nil isKeyPress localTimerStep
    s.mActiveLocalScripts (fun c _ => by simp [localTimerStep, isKeyPress])
  have hG := filterMap_stepLogs_nil isKeyPress globalRecvStep
    s.mGlobalEvents (fun e _ => by simp [globalRecvStep, isKeyPress])
  have hL := filterMap_stepLogs_nil isKeyPress (localRecvStep s)
    s.mLocalEvents (fun e _ => by
      cases h : luaTargetOf s e.mDest <;> simp [localRecvStep, h, isKeyPress])
  have hE := filterMap_stepLogs_nil isKeyPress (engineStep s)
    s.mLocalEngineEvents (fun e _ => by
      cases hv : isValidObj s e.mDest
      · simp [engineStep, hv, isKeyPress]
      · cases h2 : scriptsOf s e.mDest <;> simp [engineStep, hv, h2, isKeyPress])
  have hU := filterMap_stepLogs_nil isKeyPress instUpdStep
    s.mActiveLocalScripts (fun c _ => by simp [instUpdStep, isKeyPress])
  have hA := filterMap_stepLogs_nil isKeyPress actorStep
    s.mActorAddedEvents (fun i _ => by simp [actorStep, isKeyPress])
  have hK := filterMap_stepLogs_map isKeyPress (fun k => (pc, k)) (keyStep pc)
    s.mKeyPressEvents (fun k _ => by simp [keyStep, isKeyPress])
  cases hch : s.mPlayerChanged <;>
    simp [logOf, keyPressesOf, List.filterMap_append, hpc, hch,
      hT, hG, hL, hE, hU, hA, hK, isKeyPress]

theorem keyPressesOf_logOf_none (s : ManagerState)
    (hpc : s.mPlayerScripts = none) :
    keyPressesOf (logOf s) = [] := by
  have hT := filterMap_stepLogs_nil isKeyPress localTimerStep
    s.mActiveLocalScripts (fun c _ => by simp [localTimerStep, isKeyPress])
  have hG := filterMap_stepLogs_nil isKeyPress globalRecvStep
    s.mGlobalEvents (fun e _ => by simp [globalRecvStep, isKeyPress])
  have hL := filterMap_stepLogs_nil isKeyPress (localRecvStep s)
    s.mLocalEvents (fun e _ => by
      cases h : luaTargetOf s e.mDest <;> simp [localRecvStep, h, isKeyPress])
  have hE := filterMap_stepLogs_nil isKeyPress (engineStep s)
    s.mLocalEngineEvents (fun e _ => by
      cases hv : isValidObj s e.mDest
      · simp [engineStep, hv, isKeyPress]
      · cases h2 : scriptsOf s e.mDest <;> simp [engineStep, hv, h2, isKeyPress])
  have hU := filterMap_stepLogs_nil isKeyPress instUpdStep
    s.mActiveLocalScripts (fun c _ => by simp [instUpdStep, isKeyPress])
  have hA := filterMap_stepLogs_nil isKeyPress actorStep
    s.mActorAddedEvents (fun i _ => by simp [actorStep, isKeyPress])
  cases hch : s.mPlayerChanged <;>
    simp [logOf, keyPressesOf, List.filterMap_append, hpc, hch,
      hT, hG, hL, hE, hU, hA, isKeyPress]

theorem appliedActionsOf_logOf (s : ManagerState) :
    appliedActionsOf (logOf s) = [] := by
  have hT := filterMap_stepLogs_nil isAppliedAction localTimerStep
    s.mActiveLocalScripts (fun c _ => by simp [localTimerStep, isAppliedAction])
  have hG := filterMap_stepLogs_nil isAppliedAction globalRecvStep
    s.mGlobalEvents (fun e _ => by simp [globalRecvStep, isAppliedAction])
  have hL := filterMap_stepLogs_nil isAppliedAction (localRecvStep s)
    s.mLocalEvents (fun e _ => by
      cases h : luaTargetOf s e.mDest <;> simp [localRecvStep, h, isAppliedAction])
  have hE := filterMap_stepLogs_nil isAppliedAction (engineStep s)
    s.mLocalEngineEvents (fun e _ => by
      cases hv : isValidObj s e.mDest
      · simp [engineStep, hv, isAppliedAction]
      · cases h2 : scriptsOf s e.mDest <;>
          simp [engineStep, hv, h2, isAppliedAction])
  have hU := filterMap_stepLogs_nil isAppliedAction instUpdStep
    s.mActiveLocalScripts (fun c _ => by simp [instUpdStep, isAppliedAction])
  have hA := filterMap_stepLogs_nil isAppliedAction actorStep
    s.mActorAddedEvents (fun i _ => by simp [actorStep, isAppliedAction])
  cases hpc : s.mPlayerScripts with
  | none =>
      cases hch : s.mPlayerChanged <;>
        simp [logOf, appliedActionsOf, List.filterMap_append, hpc, hch,
          hT, hG, hL, hE, hU, hA, isAppliedAction]
  | some pc =>
      have hK := filterMap_stepLogs_nil isAppliedAction (keyStep pc)
        s.mKeyPressEvents (fun k _ => by simp [keyStep, isAppliedAction])
      cases hch : s.mPlayerChanged <;>
        simp [logOf, appliedActionsOf, List.filterMap_append, hpc, hch,
          hT, hG, hL, hE, hU, hA, hK, isAppliedAction]

theorem instanceUpdatesOf_logOf (s : ManagerState) :
    instanceUpdatesOf (logOf s) = s.mActiveLocalScripts := by
  have hT := filterMap_stepLogs_nil isInstanceUpdate localTimerStep
    s.mActiveLocalScripts (fun c _ => by simp [localTimerStep, isInstanceUpdate])
  have hG := filterMap_stepLogs_nil isInstanceUpdate globalRecvStep
    s.mGlobalEvents (fun e _ => by simp [globalRecvStep, isInstanceUpdate])
  have hL := filterMap_stepLogs_nil isInstanceUpdate (localRecvStep s)
    s.mLocalEvents (fun e _ => by
      cases h : luaTargetOf s e.mDest <;> simp [localRecvStep, h, isInstanceUpdate])
  have hE := filterMap_stepLogs_nil isInstanceUpdate (engineStep s)
    s.mLocalEngineEvents (fun e _ => by
      cases hv : isValidObj s e.mDest
      · simp [engineStep, hv, isInstanceUpdate]
      · cases h2 : scriptsOf s e.mDest <;>
          simp [engineStep, hv, h2, isInstanceUpdate])
  have hU := filterMap_stepLogs_map isInstanceUpdate id instUpdStep
    s.mActiveLocalScripts (fun c _ => by simp [instUpdStep, isInstanceUpdate])
  have hA := filterMap_stepLogs_nil isInstanceUpdate actorStep
    s.mActorAddedEvents (fun i _ => by simp [actorStep, isInstanceUpdate])
  cases hpc : s.mPlayerScripts with
  | none =>
      cases hch : s.mPlayerChanged <;>
        simp [logOf, instanceUpdatesOf, List.filterMap_append, hpc, hch,
          hT, hG, hL, hE, hU, hA, isInstanceUpdate]
  | some pc =>
      have hK := filterMap_stepLogs_nil isInstanceUpdate (keyStep pc)
        s.mKeyPressEvents (fun k _ => by simp [keyStep, isInstanceUpdate])
      cases hch : s.mPlayerChanged <;>
        simp [logOf, instanceUpdatesOf, List.filterMap_append, hpc, hch,
          hT, hG, hL, hE, hU, hA, hK, isInstanceUpdate]

theorem mem_droppedLocalsOf {e : LocalEvent} {log : List LogEntry} :
    e ∈ droppedLocalsOf log ↔ LogEntry.droppedLocal e ∈ log := by
  unfold droppedLocalsOf
  rw [List.mem_filterMap]
  constructor
  · rintro ⟨x, hx, hfx⟩
    cases x <;> simp [isDroppedLocal] at hfx
    exact hfx ▸ hx
  · intro h
    exact ⟨_, h, rfl⟩

theorem mem_deliveredLocalPairsOf {c : ContainerId} {e : LocalEvent}
    {log : List LogEntry} :
    (c, e) ∈ deliveredLocalPairsOf log ↔ LogEntry.deliveredLocal c e ∈ log := by
  unfold deliveredLocalPairsOf
  rw [List.mem_filterMap]
  constructor
  · rintro ⟨x, hx, hfx⟩
    cases x <;> simp [isDeliveredLocal] at hfx
    obtain ⟨h1, h2⟩ := hfx
    exact h1 ▸ h2 ▸ hx
  · intro h
    exact ⟨_, h, rfl⟩

theorem mem_keyPressesOf {c : ContainerId} {k : Key} {log : List LogEntry} :
    (c, k) ∈ keyPressesOf log ↔ LogEntry.keyPress c k ∈ log := by
  unfold keyPressesOf
  rw [List.mem_filterMap]
  constructor
  · rintro ⟨x, hx, hfx⟩
    cases x <;> simp [isKeyPress] at hfx
    obtain ⟨h1, h2⟩ := hfx
    exact h1 ▸ h2 ▸ hx
  · intro h
    exact ⟨_, h, rfl⟩

/-- A successful player resync either leaves the state untouched or only
refreshes `mPlayer` and re-registers the player's id. -/
theorem resyncPlayer_ok_shape {s s0 : ManagerState} {q : Ptr}
    (h : resyncPlayer s q = .ok s0) :
    s0 = s ∨ s0 = { s with
        mPlayer := some q
        registry := registerId s.registry q.id } := by
  unfold resyncPlayer at h
  split at h
  · cases h
    exact Or.inl rfl
  · split at h
    · exact Except.noConfusion h
    · split at h
      · cases h
        exact Or.inr rfl
      · cases h
        exact Or.inl rfl

/-- The fatal branch of the player resync. -/
theorem resyncPlayer_mismatch {s : ManagerState} {p q : Ptr}
    (hp : s.mPlayer = some p) (hne : p.id ≠ q.id) :
    resyncPlayer s q = .error "Player Refnum was changed unexpectedly" := by
  simp [resyncPlayer, hp, hne]

/-- When the player RefNum matches (or no player is set), the resync succeeds. -/
theorem resyncPlayer_isOk {s : ManagerState} {q : Ptr}
    (h : ∀ p, s.mPlayer = some p → p.id = q.id) :
    (resyncPlayer s q).isOk := by
  unfold resyncPlayer
  cases hp : s.mPlayer with
  | none => rfl
  | some p =>
      have := h p hp
      simp [this]
      split <;> rfl

/-- C1: during a non-paused frame, the orchestrator swaps the live event queues
out before dispatching: the global events delivered are exactly the queue as it
stood when the frame began, the local events processed (delivered or dropped)
are exactly the pre-frame local queue, and every global/local event the scripts
raise during the frame's callbacks ends up, in emission order, in the live
queues for the next frame — so nothing raised during dispatch of frame F is
delivered before frame F+1. -/
theorem update_double_buffered (b : Behavior) (s s0 s1 : ManagerState)
    (log : List LogEntry) (dt : Nat) (q : Ptr)
    (hres : resyncPlayer s q = Except.ok s0)
    (h : update b s false dt q = Except.ok (s1, log)) :
    deliveredGlobalsOf log = s.mGlobalEvents
      ∧ processedLocalsOf log = s.mLocalEvents
      ∧ s1.mGlobalEvents = emittedGlobals b (callsOf s0)
      ∧ s1.mLocalEvents = emittedLocals b (callsOf s0) := by
  rw [update, hres] at h
  simp at h
  have hs1 : s1 = (updateCore b s0 dt).1 := by rw [h]
  have hlog : log = (updateCore b s0 dt).2 := by rw [h]
  subst hs1
  subst hlog
  rcases resyncPlayer_ok_shape hres with h0 | h0 <;> subst h0 <;>
    exact ⟨by simp [updateCore_log, deliveredGlobalsOf_logOf],
      by simp [updateCore_log, processedLocalsOf_logOf],
      updateCore_globals b _ dt,
      updateCore_locals b _ dt⟩

/-- C2: a paused frame delivers nothing (its trace is empty: no timers, no
events, no engine events, no per-instance updates), advances no time, leaves
all queues and script state untouched, and only clears the key-press buffer. -/
theorem update_paused_frame (b : Behavior) (s s1 : ManagerState)
    (log : List LogEntry) (dt : Nat) (q : Ptr)
    (h : update b s true dt q = Except.ok (s1, log)) :
    log = []
      ∧ s1.time = s.time
      ∧ s1.mGlobalEvents = s.mGlobalEvents
      ∧ s1.mLocalEvents = s.mLocalEvents
      ∧ s1.mLocalEngineEvents = s.mLocalEngineEvents
      ∧ s1.mActorAddedEvents = s.mActorAddedEvents
      ∧ s1.mActionQueue = s.mActionQueue
      ∧ s1.mUIMessages = s.mUIMessages
      ∧ s1.mPlayerChanged = s.mPlayerChanged
      ∧ s1.mGlobalScripts = s.mGlobalScripts
      ∧ s1.containers = s.containers
      ∧ s1.objects = s.objects
      ∧ s1.mActiveLocalScripts = s.mActiveLocalScripts
      ∧ s1.mKeyPressEvents = [] := by
  cases hres : resyncPlayer s q with
  | error m =>
      rw [update, hres] at h
      exact Except.noConfusion h
  | ok s0 =>
      rw [update, hres] at h
      simp at h
      obtain ⟨h1, h2⟩ := h
      subst h2
      have hs1 : s1 = { s0 with mKeyPressEvents := [] } := h1.symm
      subst hs1
      rcases resyncPlayer_ok_shape hres with h0 | h0 <;> subst h0 <;>
        simp

/-- C8: with a player established, a changed player RefNum at the start of
update is a fatal logic error (thrown, not degraded); a matching RefNum lets
update proceed normally. -/
theorem update_player_consistency (b : Behavior) (s : ManagerState) (p q : Ptr)
    (paused : Bool) (dt : Nat) (hp : s.mPlayer = some p) :
    (p.id ≠ q.id →
        update b s paused dt q
          = Except.error "Player Refnum was changed unexpectedly")
      ∧ (p.id = q.id → (update b s paused dt q).isOk) := by
  constructor
  · intro hne
    rw [update, resyncPlayer_mismatch hp hne]
  · intro heq
    have hok := resyncPlayer_isOk (s := s) (q := q)
      (fun p2 hp2 => by
        rw [hp] at hp2
        cases hp2
        exact heq)
    cases hres : resyncPlayer s q with
    | error m =>
        rw [hres] at hok
        simp [Except.isOk, Except.toBool] at hok
    | ok s0 =>
        rw [update, hres]
        cases paused <;> rfl

def w1b : Behavior := fun c =>
  match c with
  | Call.GlobalRecvEvent _ => ⟨[⟨"b", 2⟩], [⟨5, "c", 3⟩], [7], ["m"]⟩
  | _ => ⟨[], [], [], []⟩

def w1s : ManagerState :=
  ⟨none, none, [], [⟨"a", 1⟩], [], [], [], [], false, [], [], none, [], [], [],
    [], [], 0, 0⟩

def w1s1 : ManagerState :=
  ⟨none, none, [], [⟨"b", 2⟩], [⟨5, "c", 3⟩], [], [], [], false, [7], ["m"],
    none, [], [], [], [], [], 0, 1⟩

def w1log : List LogEntry :=
  [LogEntry.timers none, LogEntry.deliveredGlobal ⟨"a", 1⟩, LogEntry.globalUpdate]

theorem update_double_buffered_witness :
    resyncPlayer w1s ⟨0, none⟩ = Except.ok w1s
      ∧ update w1b w1s false 1 ⟨0, none⟩ = Except.ok (w1s1, w1log)
      ∧ (deliveredGlobalsOf w1log = w1s.mGlobalEvents
          ∧ processedLocalsOf w1log = w1s.mLocalEvents
          ∧ w1s1.mGlobalEvents = emittedGlobals w1b (callsOf w1s)
          ∧ w1s1.mLocalEvents = emittedLocals w1b (callsOf w1s)) :=
  ⟨rfl, rfl, update_double_buffered w1b w1s w1s w1s1 w1log 1 ⟨0, none⟩ rfl rfl⟩

def w2b : Behavior := fun _ => ⟨[], [], [], []⟩

def w2s : ManagerState :=
  ⟨none, none, [3], [⟨"a", 1⟩], [⟨2, "b", 2⟩], [1, 2], [4],
    [⟨2, EngineEvent.OnActive⟩], true, [9], ["u"], none, [("p", 1)], ["p"],
    [2], [(2, ⟨some 3, "x", true⟩)], [(3, [("p", 1)])], 4, 5⟩

theorem update_paused_frame_witness :
    update w2b w2s true 1 ⟨0, none⟩
        = Except.ok ({ w2s with mKeyPressEvents := [] }, [])
      ∧ (([] : List LogEntry) = []
          ∧ ({ w2s with mKeyPressEvents := ([] : List Key) }).time = w2s.time
          ∧ ({ w2s with mKeyPressEvents := ([] : List Key) }).mGlobalEvents
              = w2s.mGlobalEvents
          ∧ ({ w2s with mKeyPressEvents := ([] : List Key) }).mLocalEvents
              = w2s.mLocalEvents
          ∧ ({ w2s with mKeyPressEvents := ([] : List Key) }).mLocalEngineEvents
              = w2s.mLocalEngineEvents
          ∧ ({ w2s with mKeyPressEvents := ([] : List Key) }).mActorAddedEvents
              = w2s.mActorAddedEvents
          ∧ ({ w2s with mKeyPressEvents := ([] : List Key) }).mActionQueue
              = w2s.mActionQueue
          ∧ ({ w2s with mKeyPressEvents := ([] : List Key) }).mUIMessages
              = w2s.mUIMessages
          ∧ ({ w2s with mKeyPressEvents := ([] : List Key) }).mPlayerChanged
              = w2s.mPlayerChanged
          ∧ ({ w2s with mKeyPressEvents := ([] : List Key) }).mGlobalScripts
              = w2s.mGlobalScripts
          ∧ ({ w2s with mKeyPressEvents := ([] : List Key) }).containers
              = w2s.containers
          ∧ ({ w2s with mKeyPressEvents := ([] : List Key) }).objects
              = w2s.objects
          ∧ ({ w2s with mKeyPressEvents := ([] : List Key) }).mActiveLocalScripts
              = w2s.mActiveLocalScripts
          ∧ ({ w2s with mKeyPressEvents := ([] : List Key) }).mKeyPressEvents
              = ([] : List Key)) :=
  ⟨rfl, update_paused_frame w2b w2s { w2s with mKeyPressEvents := [] } [] 1
    ⟨0, none⟩ rfl⟩

def w8b : Behavior := fun _ => ⟨[], [], [], []⟩

def w8s : ManagerState :=
  ⟨some ⟨1, none⟩, none, [], [], [], [], [], [], false, [], [], none, [], [],
    [1], [(1, ⟨none, "player", true⟩)], [], 0, 0⟩

theorem update_player_consistency_witness :
    update w8b w8s false 1 ⟨2, none⟩
        = Except.error "Player Refnum was changed unexpectedly"
      ∧ (update w8b w8s false 1 ⟨1, none⟩).isOk :=
  ⟨(update_player_consistency w8b w8s ⟨1, none⟩ ⟨2, none⟩ false 1 rfl).1
      (by decide),
    (update_player_consistency w8b w8s ⟨1, none⟩ ⟨1, none⟩ false 1 rfl).2 rfl⟩

theorem filterMap_map_none {α β γ : Type} (f : β → Option γ) (g : α → β)
    (l : List α) (h : ∀ a, f (g a) = none) : (l.map g).filterMap f = [] := by
  induction l with
  | nil => rfl
  | cons x xs ih => simp [List.filterMap_cons, h, ih]

theorem filterMap_map_some {α β γ : Type} (f : β → Option γ) (g : α → β)
    (g2 : α → γ) (l : List α) (h : ∀ a, f (g a) = some (g2 a)) :
    (l.map g).filterMap f = l.map g2 := by
  induction l with
  | nil => rfl
  | cons x xs ih => simp [List.filterMap_cons, h, ih]

/-- C10: key presses buffered via keyPressed are delivered by a non-paused
update only to the player's script container, and the key-press buffer is
cleared by every non-paused update whether or not a player container exists. -/
theorem update_keypress_only_player (b : Behavior) (s s0 s1 : ManagerState)
    (log : List LogEntry) (dt : Nat) (q : Ptr)
    (hres : resyncPlayer s q = Except.ok s0)
    (h : update b s false dt q = Except.ok (s1, log)) :
    (∀ c k, LogEntry.keyPress c k ∈ log → s.mPlayerScripts = some c)
      ∧ s1.mKeyPressEvents = [] := by
  rw [update, hres] at h
  simp at h
  have hs1 : s1 = (updateCore b s0 dt).1 := by rw [h]
  have hlog : log = (updateCore b s0 dt).2 := by rw [h]
  subst hs1
  subst hlog
  refine ⟨?_, updateCore_keys b s0 dt⟩
  intro c k hk
  rw [updateCore_log] at hk
  have hps : s0.mPlayerScripts = s.mPlayerScripts := by
    rcases resyncPlayer_ok_shape hres with h0 | h0 <;> subst h0 <;> rfl
  rw [← hps]
  cases hpc : s0.mPlayerScripts with
  | none =>
      have := keyPressesOf_logOf_none s0 hpc
      have hmem : (c, k) ∈ keyPressesOf (logOf s0) := mem_keyPressesOf.mpr hk
      rw [this] at hmem
      cases hmem
  | some pc =>
      have := keyPressesOf_logOf_some s0 pc hpc
      have hmem : (c, k) ∈ keyPressesOf (logOf s0) := mem_keyPressesOf.mpr hk
      rw [this] at hmem
      rcases List.mem_map.mp hmem with ⟨k2, _, hk2⟩
      cases hk2
      rfl

/-- C5: a queued local event whose destination resolves to no loaded object or
to an object without attached scripts is dropped with a diagnostic log entry
and never delivered; the frame still succeeds, no container or object is
created as a side effect, and every resolvable queued local event is still
delivered to its container. -/
theorem update_drops_unresolvable_local (b : Behavior) (s s0 s1 : ManagerState)
    (log : List LogEntry) (dt : Nat) (q : Ptr) (e : LocalEvent)
    (hres : resyncPlayer s q = Except.ok s0)
    (h : update b s false dt q = Except.ok (s1, log))
    (he : e ∈ s.mLocalEvents)
    (hmiss : luaTargetOf s0 e.mDest = none) :
    LogEntry.droppedLocal e ∈ log
      ∧ (∀ c, LogEntry.deliveredLocal c e ∉ log)
      ∧ s1.objects = s.objects
      ∧ s1.containers = s.containers
      ∧ s1.nextContainerId = s.nextContainerId
      ∧ (∀ e2 c2, e2 ∈ s.mLocalEvents → luaTargetOf s0 e2.mDest = some c2 →
          LogEntry.deliveredLocal c2 e2 ∈ log) := by
  rw [update, hres] at h
  simp at h
  have hs1 : s1 = (updateCore b s0 dt).1 := by rw [h]
  have hlog : log = (updateCore b s0 dt).2 := by rw [h]
  subst hs1
  subst hlog
  have hq : s0.mLocalEvents = s.mLocalEvents := by
    rcases resyncPlayer_ok_shape hres with h0 | h0 <;> subst h0 <;> rfl
  have hobj : s0.objects = s.objects := by
    rcases resyncPlayer_ok_shape hres with h0 | h0 <;> subst h0 <;> rfl
  have hcon : s0.containers = s.containers := by
    rcases resyncPlayer_ok_shape hres with h0 | h0 <;> subst h0 <;> rfl
  have hnid : s0.nextContainerId = s.nextContainerId := by
    rcases resyncPlayer_ok_shape hres with h0 | h0 <;> subst h0 <;> rfl
  refine ⟨?_, ?_, ?_, ?_, ?_, ?_⟩
  · rw [updateCore_log]
    refine mem_droppedLocalsOf.mp ?_
    rw [droppedLocalsOf_logOf]
    exact List.mem_filterMap.mpr ⟨e, hq ▸ he, by rw [hmiss]⟩
  · intro c hc
    rw [updateCore_log] at hc
    have hmem : (c, e) ∈ deliveredLocalPairsOf (logOf s0) :=
      mem_deliveredLocalPairsOf.mpr hc
    rw [deliveredLocalPairsOf_logOf] at hmem
    rcases List.mem_filterMap.mp hmem with ⟨e2, _, hfe2⟩
    cases ht2 : luaTargetOf s0 e2.mDest with
    | none => rw [ht2] at hfe2; cases hfe2
    | some c2 =>
        rw [ht2] at hfe2
        simp at hfe2
        obtain ⟨hc2, he2⟩ := hfe2
        rw [he2] at ht2
        rw [ht2] at hmiss
        cases hmiss
  · rw [updateCore_objects, hobj]
  · rw [updateCore_containers, hcon]
  · rw [updateCore_nextContainerId, hnid]
  · intro e2 c2 he2 ht2
    rw [updateCore_log]
    refine mem_deliveredLocalPairsOf.mp ?_
    rw [deliveredLocalPairsOf_logOf]
    exact List.mem_filterMap.mpr ⟨e2, hq ▸ he2, by rw [ht2]; rfl⟩

/-- C4: deferred actions enqueued by scripts during a frame's callbacks are
appended to the action queue in emission order; update applies none of them
while it runs every per-instance update, and the dedicated applyQueuedChanges
phase then applies exactly the whole queue in enqueue order and drains it. -/
theorem actions_deferred_and_ordered (b : Behavior) (s s0 s1 : ManagerState)
    (log : List LogEntry) (dt : Nat) (q : Ptr)
    (hres : resyncPlayer s q = Except.ok s0)
    (h : update b s false dt q = Except.ok (s1, log))
    (htele : s.mTeleportPlayerAction = none) :
    appliedActionsOf log = []
      ∧ instanceUpdatesOf log = s.mActiveLocalScripts
      ∧ s1.mActionQueue = s.mActionQueue ++ emittedActions b (callsOf s0)
      ∧ appliedActionsOf (applyQueuedChanges s1).2 = s1.mActionQueue
      ∧ instanceUpdatesOf (applyQueuedChanges s1).2 = []
      ∧ (applyQueuedChanges s1).1.mActionQueue = [] := by
  rw [update, hres] at h
  simp at h
  have hs1 : s1 = (updateCore b s0 dt).1 := by rw [h]
  have hlog : log = (updateCore b s0 dt).2 := by rw [h]
  subst hs1
  subst hlog
  have hqa : s0.mActionQueue = s.mActionQueue := by
    rcases resyncPlayer_ok_shape hres with h0 | h0 <;> subst h0 <;> rfl
  have hact : s0.mActiveLocalScripts = s.mActiveLocalScripts := by
    rcases resyncPlayer_ok_shape hres with h0 | h0 <;> subst h0 <;> rfl
  have htel0 : s0.mTeleportPlayerAction = none := by
    rcases resyncPlayer_ok_shape hres with h0 | h0 <;> subst h0 <;> exact htele
  have htel1 : (updateCore b s0 dt).1.mTeleportPlayerAction = none := by
    rw [updateCore_teleport]
    exact htel0
  refine ⟨?_, ?_, ?_, ?_, ?_, rfl⟩
  · rw [updateCore_log, appliedActionsOf_logOf]
  · rw [updateCore_log, instanceUpdatesOf_logOf, hact]
  · rw [updateCore_actions, hqa]
  · unfold applyQueuedChanges appliedActionsOf
    rw [htel1]
    rw [List.append_nil, List.filterMap_append,
      filterMap_map_none isAppliedAction LogEntry.uiMessage _ (fun a => rfl),
      filterMap_map_some isAppliedAction LogEntry.appliedAction id _ (fun a => rfl)]
    simp
  · unfold applyQueuedChanges instanceUpdatesOf
    rw [htel1]
    rw [List.append_nil, List.filterMap_append,
      filterMap_map_none isInstanceUpdate LogEntry.uiMessage _ (fun a => rfl),
      filterMap_map_none isInstanceUpdate LogEntry.appliedAction _ (fun a => rfl)]
    rfl

def w10b : Behavior := fun _ => ⟨[], [], [], []⟩

def w10s : ManagerState :=
  ⟨none, some 0, [0], [], [], [1, 2], [], [], false, [], [], none, [], [],
    [1], [(1, ⟨some 0, "player", true⟩)], [(0, [])], 1, 0⟩

def w10s1 : ManagerState :=
  ⟨none, some 0, [0], [], [], [], [], [], false, [], [], none, [], [],
    [1], [(1, ⟨some 0, "player", true⟩)], [(0, [])], 1, 1⟩

def w10log : List LogEntry :=
  [LogEntry.timers none, LogEntry.timers (some 0), LogEntry.keyPress 0 1,
    LogEntry.keyPress 0 2, LogEntry.instanceUpdate 0, LogEntry.globalUpdate]

theorem update_keypress_only_player_witness :
    resyncPlayer w10s ⟨0, none⟩ = Except.ok w10s
      ∧ update w10b w10s false 1 ⟨0, none⟩ = Except.ok (w10s1, w10log)
      ∧ (LogEntry.keyPress 0 1 ∈ w10log → w10s.mPlayerScripts = some 0)
      ∧ w10s1.mKeyPressEvents = [] :=
  ⟨rfl, rfl,
    (update_keypress_only_player w10b w10s w10s w10s1 w10log 1 ⟨0, none⟩
      rfl rfl).1 0 1,
    (update_keypress_only_player w10b w10s w10s w10s1 w10log 1 ⟨0, none⟩
      rfl rfl).2⟩

def w5b : Behavior := fun _ => ⟨[], [], [], []⟩

def w5s : ManagerState :=
  ⟨none, none, [0], [], [⟨7, "ping", 0⟩, ⟨1, "pong", 2⟩], [], [], [], false,
    [], [], none, [], [], [1], [(1, ⟨some 0, "box", false⟩)], [(0, [])], 1, 0⟩

def w5s1 : ManagerState :=
  ⟨none, none, [0], [], [], [], [], [], false, [], [], none, [], [],
    [1], [(1, ⟨some 0, "box", false⟩)], [(0, [])], 1, 1⟩

def w5log : List LogEntry :=
  [LogEntry.timers none, LogEntry.timers (some 0),
    LogEntry.droppedLocal ⟨7, "ping", 0⟩,
    LogEntry.deliveredLocal 0 ⟨1, "pong", 2⟩,
    LogEntry.instanceUpdate 0, LogEntry.globalUpdate]

theorem update_drops_unresolvable_local_witness :
    resyncPlayer w5s ⟨0, none⟩ = Except.ok w5s
      ∧ update w5b w5s false 1 ⟨0, none⟩ = Except.ok (w5s1, w5log)
      ∧ (⟨7, "ping", 0⟩ : LocalEvent) ∈ w5s.mLocalEvents
      ∧ luaTargetOf w5s (7 : ObjectId) = none
      ∧ LogEntry.droppedLocal ⟨7, "ping", 0⟩ ∈ w5log
      ∧ LogEntry.deliveredLocal 0 ⟨7, "ping", 0⟩ ∉ w5log
      ∧ w5s1.objects = w5s.objects
      ∧ w5s1.containers = w5s.containers
      ∧ LogEntry.deliveredLocal 0 ⟨1, "pong", 2⟩ ∈ w5log :=
  ⟨rfl, rfl, by decide, rfl,
    (update_drops_unresolvable_local w5b w5s w5s w5s1 w5log 1 ⟨0, none⟩
      ⟨7, "ping", 0⟩ rfl rfl (by decide) rfl).1,
    (update_drops_unresolvable_local w5b w5s w5s w5s1 w5log 1 ⟨0, none⟩
      ⟨7, "ping", 0⟩ rfl rfl (by decide) rfl).2.1 0,
    (update_drops_unresolvable_local w5b w5s w5s w5s1 w5log 1 ⟨0, none⟩
      ⟨7, "ping", 0⟩ rfl rfl (by decide) rfl).2.2.1,
    (update_drops_unresolvable_local w5b w5s w5s w5s1 w5log 1 ⟨0, none⟩
      ⟨7, "ping", 0⟩ rfl rfl (by decide) rfl).2.2.2.1,
    (update_drops_unresolvable_local w5b w5s w5s w5s1 w5log 1 ⟨0, none⟩
      ⟨7, "ping", 0⟩ rfl rfl (by decide) rfl).2.2.2.2.2 ⟨1, "pong", 2⟩ 0
      (by decide) rfl⟩

def w4b : Behavior := fun c =>
  match c with
  | Call.LocalUpdate _ => ⟨[], [], [21, 22], []⟩
  | Call.GlobalUpdate => ⟨[], [], [23], []⟩
  | _ => ⟨[], [], [], []⟩

def w4s : ManagerState :=
  ⟨none, none, [0], [], [], [], [], [], false, [20], [], none, [], [],
    [], [], [(0, [])], 1, 0⟩

def w4s1 : ManagerState :=
  ⟨none, none, [0], [], [], [], [], [], false, [20, 21, 22, 23], [], none,
    [], [], [], [], [(0, [])], 1, 1⟩

def w4log : List LogEntry :=
  [LogEntry.timers none, LogEntry.timers (some 0), LogEntry.instanceUpdate 0,
    LogEntry.globalUpdate]

theorem actions_deferred_and_ordered_witness :
    resyncPlayer w4s ⟨0, none⟩ = Except.ok w4s
      ∧ update w4b w4s false 1 ⟨0, none⟩ = Except.ok (w4s1, w4log)
      ∧ w4s.mTeleportPlayerAction = none
      ∧ (appliedActionsOf w4log = []
          ∧ instanceUpdatesOf w4log = w4s.mActiveLocalScripts
          ∧ w4s1.mActionQueue
              = w4s.mActionQueue ++ emittedActions w4b (callsOf w4s)
          ∧ appliedActionsOf (applyQueuedChanges w4s1).2 = w4s1.mActionQueue
          ∧ instanceUpdatesOf (applyQueuedChanges w4s1).2 = []
          ∧ (applyQueuedChanges w4s1).1.mActionQueue = []) :=
  ⟨rfl, rfl, rfl,
    actions_deferred_and_ordered w4b w4s w4s w4s1 w4log 1 ⟨0, none⟩
      rfl rfl rfl⟩

theorem lookup_setLuaScripts (objs : List (ObjectId × RefData)) (pid : ObjectId)
    (v : Option ContainerId) (rd : RefData) (h : objs.lookup pid = some rd) :
    (setLuaScripts objs pid v).lookup pid = some { rd with luaScripts := v } := by
  induction objs with
  | nil => cases h
  | cons pr os ih =>
      obtain ⟨k, r⟩ := pr
      by_cases hk : k = pid
      · subst hk
        rw [List.lookup_cons_self] at h
        injection h with h
        subst h
        show ((if k = k then (k, { r with luaScripts := v }) else (k, r))
          :: setLuaScripts os k v).lookup k = _
        rw [if_pos rfl, List.lookup_cons_self]
      · have hbe : (pid == k) = false := beq_eq_false_iff_ne.mpr (Ne.symm hk)
        rw [List.lookup_cons, hbe] at h
        show ((if k = pid then (k, { r with luaScripts := v }) else (k, r))
          :: setLuaScripts os pid v).lookup pid = _
        rw [if_neg hk, List.lookup_cons, hbe]
        exact ih h

theorem lookup_updateContainer_append_fresh
    (cs : List (ContainerId × ScriptsData)) (cid : ContainerId)
    (f : ScriptsData → ScriptsData) (h : ∀ pr ∈ cs, pr.1 ≠ cid) :
    (updateContainer (cs ++ [(cid, [])]) cid f).lookup cid = some (f []) := by
  induction cs with
  | nil =>
      show (((if cid = cid then (cid, f []) else (cid, []))
          : ContainerId × ScriptsData) :: updateContainer [] cid f).lookup cid
        = some (f [])
      rw [if_pos rfl, List.lookup_cons_self]
  | cons pr os ih =>
      obtain ⟨k, c⟩ := pr
      have hne : k ≠ cid := h (k, c) (by simp)
      have hbe : (cid == k) = false := beq_eq_false_iff_ne.mpr (Ne.symm hne)
      show ((if k = cid then (k, f c) else (k, c))
        :: updateContainer (os ++ [(cid, [])]) cid f).lookup cid = _
      rw [if_neg hne, List.lookup_cons, hbe]
      exact ih (fun q hq => h q (by simp [hq]))

/-- C9: a second setupPlayer is the fatal "Player is initialized twice" logic
error; a first setupPlayer on the player object (no container attached yet)
registers it, records it as the player, creates its container, inserts the
container into the active set, queues the OnActive engine event and marks the
player changed. -/
theorem setupPlayer_contract (s : ManagerState) (ptr : Ptr) (rd : RefData) :
    (s.mPlayer.isSome →
        setupPlayer s ptr = Except.error "Player is initialized twice")
      ∧ (s.mPlayer = none → refDataOf s ptr.id = some rd →
          rd.luaScripts = none → rd.refId = "player" →
          setupPlayer s ptr = Except.ok { s with
            mPlayer := some ptr
            registry := registerId s.registry ptr.id
            mPlayerScripts := some s.nextContainerId
            containers := s.containers ++ [(s.nextContainerId, [])]
            nextContainerId := s.nextContainerId + 1
            objects := setLuaScripts s.objects ptr.id (some s.nextContainerId)
            mActiveLocalScripts :=
              insertActive s.mActiveLocalScripts s.nextContainerId
            mLocalEngineEvents :=
              s.mLocalEngineEvents ++ [⟨ptr.id, EngineEvent.OnActive⟩]
            mPlayerChanged := true }) := by
  constructor
  · intro hp
    unfold setupPlayer
    rw [if_pos hp]
  · intro hp hrd hlua hpid
    unfold setupPlayer
    rw [hp]
    simp only [Option.isSome_none, Bool.false_eq_true, if_false]
    have hsc : scriptsOf { s with
        registry := registerId s.registry ptr.id
        mPlayer := some ptr } ptr.id = none := by
      show (s.objects.lookup ptr.id).bind RefData.luaScripts = none
      rw [show s.objects.lookup ptr.id = some rd from hrd]
      exact hlua
    rw [hsc]
    simp only [Option.isNone_none, if_true]
    unfold createLocalScripts
    have hrd2 : refDataOf { s with
        registry := registerId s.registry ptr.id
        mPlayer := some ptr } ptr.id = some rd := hrd
    rw [hrd2]
    simp [hpid]

/-- C7: loading an empty serialized script list tears down any existing local
container of the object (leaving none attached) and creates nothing; a
non-empty list creates a fresh container and loads the serialized state into
it. -/
theorem loadLocalScripts_spec (env : String → Bool) (s : ManagerState)
    (pid : ObjectId) (data : ScriptsData) (rd : RefData)
    (hrd : refDataOf s pid = some rd)
    (hfresh : ∀ pr ∈ s.containers, pr.1 ≠ s.nextContainerId) :
    (data = [] →
        scriptsOf (loadLocalScripts env s pid data) pid = none
          ∧ (loadLocalScripts env s pid data).containers = s.containers
          ∧ (loadLocalScripts env s pid data).nextContainerId
              = s.nextContainerId)
      ∧ (data ≠ [] → (∀ p ∈ data, env p.1 = true) →
          scriptsOf (loadLocalScripts env s pid data) pid
              = some s.nextContainerId
            ∧ (loadLocalScripts env s pid data).containers.lookup
                s.nextContainerId = some data
            ∧ (loadLocalScripts env s pid data).nextContainerId
                = s.nextContainerId + 1) := by
  constructor
  · intro hdata
    subst hdata
    unfold loadLocalScripts
    rw [if_pos rfl]
    by_cases hsc : (scriptsOf s pid).isSome = true
    · rw [if_pos hsc]
      refine ⟨?_, rfl, rfl⟩
      show ((setLuaScripts s.objects pid none).lookup pid).bind
        RefData.luaScripts = none
      rw [lookup_setLuaScripts s.objects pid none rd hrd]
      rfl
    · rw [if_neg hsc]
      refine ⟨?_, rfl, rfl⟩
      cases hsc2 : scriptsOf s pid with
      | none => rfl
      | some c =>
          rw [hsc2] at hsc
          exact absurd rfl hsc
  · intro hdata henv
    unfold loadLocalScripts
    rw [if_neg hdata]
    refine ⟨?_, ?_, rfl⟩
    · show ((setLuaScripts s.objects pid
        (some s.nextContainerId)).lookup pid).bind RefData.luaScripts = _
      rw [lookup_setLuaScripts s.objects pid (some s.nextContainerId) rd hrd]
      rfl
    · show (updateContainer (s.containers ++ [(s.nextContainerId, [])])
        s.nextContainerId (fun c => loadC env data true c)).lookup
          s.nextContainerId = some data
      rw [lookup_updateContainer_append_fresh s.containers s.nextContainerId _
        hfresh]
      show some (data.filter (fun p => env p.1)) = some data
      rw [List.filter_eq_self.mpr henv]

def w9s : ManagerState :=
  ⟨none, none, [], [], [], [], [], [], false, [], [], none, [], [],
    [], [(1, ⟨none, "player", true⟩)], [], 0, 0⟩

def w9sP : ManagerState :=
  ⟨some ⟨1, none⟩, some 0, [0], [], [], [], [], [], false, [], [], none, [], [],
    [1], [(1, ⟨some 0, "player", true⟩)], [(0, [])], 1, 0⟩

theorem setupPlayer_contract_witness :
    setupPlayer w9sP ⟨1, none⟩ = Except.error "Player is initialized twice"
      ∧ setupPlayer w9s ⟨1, none⟩ = Except.ok { w9s with
          mPlayer := some ⟨1, none⟩
          registry := registerId w9s.registry 1
          mPlayerScripts := some w9s.nextContainerId
          containers := w9s.containers ++ [(w9s.nextContainerId, [])]
          nextContainerId := w9s.nextContainerId + 1
          objects := setLuaScripts w9s.objects 1 (some w9s.nextContainerId)
          mActiveLocalScripts :=
            insertActive w9s.mActiveLocalScripts w9s.nextContainerId
          mLocalEngineEvents :=
            w9s.mLocalEngineEvents ++ [⟨1, EngineEvent.OnActive⟩]
          mPlayerChanged := true } :=
  ⟨(setupPlayer_contract w9sP ⟨1, none⟩ ⟨some 0, "player", true⟩).1 rfl,
    (setupPlayer_contract w9s ⟨1, none⟩ ⟨none, "player", true⟩).2
      rfl rfl rfl rfl⟩

def w7env : String → Bool := fun _ => true

def w7s : ManagerState :=
  ⟨none, none, [], [], [], [], [], [], false, [], [], none, [], [],
    [1], [(1, ⟨some 0, "box", false⟩)], [(0, [("a", 5)])], 1, 0⟩

theorem loadLocalScripts_spec_witness :
    (scriptsOf (loadLocalScripts w7env w7s 1 []) 1 = none
        ∧ (loadLocalScripts w7env w7s 1 []).containers = w7s.containers
        ∧ (loadLocalScripts w7env w7s 1 []).nextContainerId
            = w7s.nextContainerId)
      ∧ (scriptsOf (loadLocalScripts w7env w7s 1 [("b", 9)]) 1
            = some w7s.nextContainerId
          ∧ (loadLocalScripts w7env w7s 1 [("b", 9)]).containers.lookup
              w7s.nextContainerId = some [("b", 9)]
          ∧ (loadLocalScripts w7env w7s 1 [("b", 9)]).nextContainerId
              = w7s.nextContainerId + 1) :=
  ⟨(loadLocalScripts_spec w7env w7s 1 [] ⟨some 0, "box", false⟩ rfl
      (by decide)).1 rfl,
    (loadLocalScripts_spec w7env w7s 1 [("b", 9)] ⟨some 0, "box", false⟩ rfl
      (by decide)).2 (by decide) (by decide)⟩

theorem foldl_addNewScript (env : String → Bool) (l : List String) :
    ∀ c0 : ScriptsData,
      l.foldl (addNewScript env) c0 = c0 ++ (l.filter env).map (fun p => (p, 0)) := by
  induction l with
  | nil => intro c0; simp
  | cons p rest ih =>
      intro c0
      rw [List.foldl_cons]
      by_cases hp : env p = true
      · rw [show addNewScript env c0 p = c0 ++ [(p, 0)] from by
          simp [addNewScript, hp], ih]
        simp [List.filter_cons, hp]
      · rw [show addNewScript env c0 p = c0 from by simp [addNewScript, hp], ih]
        simp [List.filter_cons, hp]

theorem reconstruct (d : ScriptsData) (h : (d.map Prod.fst).Nodup) :
    (d.map Prod.fst).map (fun p => (p, ((d.lookup p).getD 0))) = d := by
  induction d with
  | nil => rfl
  | cons pr rest ih =>
      obtain ⟨p, v⟩ := pr
      rw [List.map_cons, List.nodup_cons] at h
      obtain ⟨hp, hrest⟩ := h
      rw [List.map_cons, List.map_cons, List.lookup_cons_self]
      show (p, v) :: (rest.map Prod.fst).map
        (fun q => (q, ((((p, v) :: rest).lookup q).getD 0))) = (p, v) :: rest
      congr 1
      have hq : ∀ q ∈ rest.map Prod.fst,
          (q, ((((p, v) :: rest).lookup q).getD 0))
            = (q, ((rest.lookup q).getD 0)) := by
        intro q hq
        have hne : q ≠ p := fun e => hp (e ▸ hq)
        rw [List.lookup_cons, beq_eq_false_iff_ne.mpr hne]
      rw [List.map_congr_left hq]
      exact ih hrest

theorem updateContainer_loadC_id (env : String → Bool)
    (cs : List (ContainerId × ScriptsData)) (cid : ContainerId)
    (h : ∀ pr ∈ cs, ∀ p ∈ pr.2, env p.1 = true) :
    updateContainer cs cid (fun c => loadC env (saveC c) true c) = cs := by
  induction cs with
  | nil => rfl
  | cons pr os ih =>
      obtain ⟨k, v⟩ := pr
      show (if k = cid then (k, loadC env (saveC v) true v) else (k, v))
        :: updateContainer os cid (fun c => loadC env (saveC c) true c)
        = (k, v) :: os
      have hv : loadC env (saveC v) true v = v := by
        show v.filter (fun p => env p.1) = v
        exact List.filter_eq_self.mpr (h (k, v) (by simp))
      rw [hv, ite_self]
      rw [ih (fun q hq => h q (by simp [hq]))]

theorem reload_containers_fold (env : String → Bool) (s : ManagerState)
    (l : List ObjectId)
    (h : ∀ pr ∈ s.containers, ∀ p ∈ pr.2, env p.1 = true) :
    l.foldl
      (fun cs id =>
        match scriptsOf s id with
        | some cid => updateContainer cs cid (fun c => loadC env (saveC c) true c)
        | none => cs)
      s.containers = s.containers := by
  induction l with
  | nil => rfl
  | cons id rest ih =>
      rw [List.foldl_cons]
      cases hsc : scriptsOf s id with
      | none =>
          simp only [hsc]
          exact ih
      | some cid =>
          simp only [hsc]
          rw [updateContainer_loadC_id env s.containers cid h]
          exact ih

/-- C6: `reloadAllScripts` is a semantic no-op on script state.  The scripts
container's save/load/addNewScript live outside this translation unit and are
modelled from the spec (§4.2, §4.6): under an unmodified global script list
(the container holds exactly the resolvable scripts of the list, without
duplicates) the global container's serialized state round-trips, and every
local container (all of whose script sources resolve) round-trips through the
save-then-reload-then-load sequence. -/
theorem reloadAllScripts_roundtrip (env : String → Bool) (s : ManagerState)
    (hpaths : s.mGlobalScripts.map Prod.fst = s.mGlobalScriptList.filter env)
    (hnd : (s.mGlobalScripts.map Prod.fst).Nodup)
    (hres : ∀ pr ∈ s.containers, ∀ p ∈ pr.2, env p.1 = true) :
    saveC (reloadAllScripts env s).mGlobalScripts = saveC s.mGlobalScripts
      ∧ (reloadAllScripts env s).containers = s.containers := by
  constructor
  · show loadC env (saveC s.mGlobalScripts) false
      (s.mGlobalScriptList.foldl (addNewScript env)
        (removeAllScripts s.mGlobalScripts)) = s.mGlobalScripts
    rw [show removeAllScripts s.mGlobalScripts = [] from rfl,
      foldl_addNewScript env s.mGlobalScriptList [], List.nil_append, ← hpaths]
    show ((s.mGlobalScripts.map Prod.fst).map (fun p => (p, 0))).map
      (fun pr => (pr.1, ((s.mGlobalScripts.lookup pr.1).getD pr.2)))
        = s.mGlobalScripts
    rw [List.map_map]
    exact reconstruct s.mGlobalScripts hnd
  · exact reload_containers_fold env s s.registry hres

def w6env : String → Bool := fun _ => true

def w6s : ManagerState :=
  ⟨none, none, [], [], [], [], [], [], false, [], [], none,
    [("a", 5), ("b", 7)], ["a", "b"], [1], [(1, ⟨some 0, "box", false⟩)],
    [(0, [("c", 3)])], 1, 0⟩

theorem reloadAllScripts_roundtrip_witness :
    w6s.mGlobalScripts.map Prod.fst = w6s.mGlobalScriptList.filter w6env
      ∧ (w6s.mGlobalScripts.map Prod.fst).Nodup
      ∧ (saveC (reloadAllScripts w6env w6s).mGlobalScripts
            = saveC w6s.mGlobalScripts
          ∧ (reloadAllScripts w6env w6s).containers = w6s.containers) :=
  ⟨by decide, by decide,
    reloadAllScripts_roundtrip w6env w6s (by decide) (by decide) (by decide)⟩

def w3env : String → Bool := fun _ => true

def w3s : ManagerState :=
  ⟨none, none, [], [], [], [], [], [], false, [], [], none, [], [],
    [], [(1, ⟨none, "box", false⟩)], [], 0, 0⟩

/-- C3 counterexample: object 1 is not in the scene (it was never passed to
objectAddedToScene; the active set is empty and the object is not even
registered), yet attaching a script via addLocalScript changes the ActiveSet:
the freshly created container is inserted into it. -/
theorem addLocalScript_activeSet_counterexample :
    ¬ ((addLocalScript w3env w3s 1 "a.lua").mActiveLocalScripts
        = w3s.mActiveLocalScripts) := by decide

/-- C3 (amended): ActiveSet membership is unchanged by load/unload and the
other non-scene operations (loadLocalScripts, registerObject,
deregisterObject, keyPressed, appliedToObject, reloadAllScripts,
applyQueuedChanges, update) and by addLocalScript on an object that already
has a container; but addLocalScript on an object without a container inserts
the newly created container into the ActiveSet regardless of scene
membership (beyond the scene hooks objectAddedToScene / objectRemovedFromScene,
setupPlayer and clear). -/
theorem activeSet_membership_discipline (env : String → Bool)
    (s s1 : ManagerState) (b : Behavior) (pid : ObjectId) (path : String)
    (data : ScriptsData) (k : Key) (r : String) (c : ContainerId)
    (paused : Bool) (dt : Nat) (q : Ptr) (log : List LogEntry) :
    (loadLocalScripts env s pid data).mActiveLocalScripts
        = s.mActiveLocalScripts
      ∧ (registerObject s pid).mActiveLocalScripts = s.mActiveLocalScripts
      ∧ (deregisterObject s pid).mActiveLocalScripts = s.mActiveLocalScripts
      ∧ (keyPressed s k).mActiveLocalScripts = s.mActiveLocalScripts
      ∧ (appliedToObject s pid r).mActiveLocalScripts = s.mActiveLocalScripts
      ∧ (reloadAllScripts env s).mActiveLocalScripts = s.mActiveLocalScripts
      ∧ (applyQueuedChanges s).1.mActiveLocalScripts = s.mActiveLocalScripts
      ∧ (update b s paused dt q = Except.ok (s1, log) →
          s1.mActiveLocalScripts = s.mActiveLocalScripts)
      ∧ (scriptsOf s pid = some c →
          (addLocalScript env s pid path).mActiveLocalScripts
            = s.mActiveLocalScripts)
      ∧ (scriptsOf s pid = none →
          (addLocalScript env s pid path).mActiveLocalScripts
            = insertActive s.mActiveLocalScripts s.nextContainerId) := by
  refine ⟨?_, rfl, rfl, rfl, rfl, rfl, rfl, ?_, ?_, ?_⟩
  · unfold loadLocalScripts
    by_cases hd : data = []
    · rw [if_pos hd]
      by_cases hs : (scriptsOf s pid).isSome = true
      · rw [if_pos hs]
      · rw [if_neg hs]
    · rw [if_neg hd]
      rfl
  · intro h
    cases hres : resyncPlayer s q with
    | error m =>
        rw [update, hres] at h
        exact Except.noConfusion h
    | ok s0 =>
        rw [update, hres] at h
        have ha : s0.mActiveLocalScripts = s.mActiveLocalScripts := by
          rcases resyncPlayer_ok_shape hres with h0 | h0 <;> subst h0 <;> rfl
        cases paused
        · simp at h
          have hs1 : s1 = (updateCore b s0 dt).1 := by rw [h]
          subst hs1
          rw [updateCore_active]
          exact ha
        · simp at h
          obtain ⟨h1, h2⟩ := h
          have hs1 : s1 = { s0 with mKeyPressEvents := [] } := h1.symm
          subst hs1
          exact ha
  · intro hsome
    unfold addLocalScript
    simp only [hsome]
  · intro hnone
    have hmatch : ∀ t : ManagerState,
        (match scriptsOf t pid with
          | some cid =>
              { t with containers :=
                  (updateContainer t.containers cid
                    (fun c => addNewScript env c path)) }
          | none => t).mActiveLocalScripts = t.mActiveLocalScripts := by
      intro t
      cases scriptsOf t pid <;> rfl
    unfold addLocalScript
    rw [hnone]
    exact hmatch { s with
      mPlayerScripts :=
        if (refDataOf s pid).map RefData.refId = some "player"
        then some s.nextContainerId else s.mPlayerScripts
      objects := setLuaScripts s.objects pid (some s.nextContainerId)
      containers := s.containers ++ [(s.nextContainerId, [])]
      nextContainerId := s.nextContainerId + 1
      mActiveLocalScripts :=
        insertActive s.mActiveLocalScripts s.nextContainerId }

def w3b : Behavior := fun _ => ⟨[], [], [], []⟩

def w3sB : ManagerState :=
  ⟨none, none, [0], [], [], [], [], [], false, [], [], none, [], [],
    [1], [(1, ⟨some 0, "box", false⟩)], [(0, [])], 1, 0⟩

theorem activeSet_membership_discipline_witness :
    (loadLocalScripts w3env w3s 1 []).mActiveLocalScripts
        = w3s.mActiveLocalScripts
      ∧ ({ w3s with mKeyPressEvents := ([] : List Key) }).mActiveLocalScripts
          = w3s.mActiveLocalScripts
      ∧ (addLocalScript w3env w3sB 1 "a.lua").mActiveLocalScripts
          = w3sB.mActiveLocalScripts
      ∧ (addLocalScript w3env w3s 1 "a.lua").mActiveLocalScripts
          = insertActive w3s.mActiveLocalScripts w3s.nextContainerId :=
  ⟨(activeSet_membership_discipline w3env w3s w3s w3b 1 "a.lua" [] 0 "" 0
      true 1 ⟨0, none⟩ []).1,
    (activeSet_membership_discipline w3env w3s
      { w3s with mKeyPressEvents := [] } w3b 1 "a.lua" [] 0 "" 0
      true 1 ⟨0, none⟩ []).2.2.2.2.2.2.2.1 rfl,
    (activeSet_membership_discipline w3env w3sB w3sB w3b 1 "a.lua" [] 0 "" 0
      true 1 ⟨0, none⟩ []).2.2.2.2.2.2.2.2.1 rfl,
    (activeSet_membership_discipline w3env w3s w3s w3b 1 "a.lua" [] 0 "" 0
      true 1 ⟨0, none⟩ []).2.2.2.2.2.2.2.2.2 rfl⟩

end MWLua
